import Mathlib

/-!
# Soccer pool tracker — verification of the ingestion/scoring pipeline

Shallow embedding of the scoring rules engine (`js/rules-engine.js`), the
display payout computation (`js/views.js`), and the scraper's name matching,
squad-table parsing and data-integrity gate (`scripts/scrape-fbref.js`).

Modelling conventions:
* JavaScript numbers that can only ever be finite in the modelled code paths
  are embedded as `ℚ`; where the code can meet `NaN` / `Infinity` / a missing
  field (the integrity gate, which revalidates previously persisted JSON),
  values are embedded as `Option JsNum` (`none` = absent/`undefined`/`null`).
* JavaScript dates are embedded as integers (timestamps); `new Date(a) <
  new Date(b)` becomes integer `<`.
* `Array.prototype.sort` is required by the ECMAScript spec to be stable; a
  stable sort for the total preorder induced by a consistent comparator is
  unique, so it is embedded as `List.insertionSort r` with
  `r a b ↔ comparator a b ≤ 0` (insertion sort with a non-strict total
  preorder is stable).
* String error messages built by template literals are embedded as a
  structured inductive (`ValError`) carrying exactly the data interpolated
  into the message.
-/

/-! ## JavaScript string primitives -/

/-- JS `String.prototype.includes` on character lists
(`needle` occurs contiguously in the second argument). -/
def includesChars (needle : List Char) : List Char → Bool
  | [] => needle.isEmpty
  | c :: t => needle.isPrefixOf (c :: t) || includesChars needle t

/-- JS `hay.includes(needle)`. -/
def jsIncludes (hay needle : String) : Bool :=
  includesChars needle.data hay.data

/-- JS `hay.startsWith(needle)`. -/
def jsStartsWith (hay needle : String) : Bool :=
  needle.data.isPrefixOf hay.data

/-- JS `String.prototype.toLowerCase`, restricted to the alphabet appearing in
this repository's data: ASCII letters plus the accented capitals that occur in
competition and entity names. -/
def jsToLowerChar (c : Char) : Char :=
  if 'A' ≤ c ∧ c ≤ 'Z' then Char.ofNat (c.toNat + 32)
  else match c with
  | 'À' => 'à' | 'Á' => 'á' | 'Â' => 'â' | 'Ä' => 'ä' | 'Å' => 'å'
  | 'È' => 'è' | 'É' => 'é' | 'Ê' => 'ê' | 'Ë' => 'ë'
  | 'Ì' => 'ì' | 'Í' => 'í' | 'Î' => 'î' | 'Ï' => 'ï'
  | 'Ò' => 'ò' | 'Ó' => 'ó' | 'Ô' => 'ô' | 'Ö' => 'ö' | 'Ø' => 'ø'
  | 'Ù' => 'ù' | 'Ú' => 'ú' | 'Û' => 'û' | 'Ü' => 'ü'
  | 'Ç' => 'ç' | 'Ñ' => 'ñ' | 'Š' => 'š' | 'Ž' => 'ž' | 'Ć' => 'ć' | 'Č' => 'č'
  | c => c

/-- JS `String.prototype.toLowerCase`. -/
def jsToLower (s : String) : String :=
  String.mk (s.data.map jsToLowerChar)

/-- JS whitespace class `\s` (the members that can occur in this data). -/
def isJsSpace (c : Char) : Bool :=
  c = ' ' ∨ c = '\t' ∨ c = '\n' ∨ c = '\r' ∨ c = '\x0b' ∨ c = '\x0c' ∨ c = ' '

/-- JS `String.prototype.trim` on character lists. -/
def trimChars (l : List Char) : List Char :=
  ((l.dropWhile isJsSpace).reverse.dropWhile isJsSpace).reverse

/-- JS `s.trim()`. -/
def jsTrim (s : String) : String :=
  String.mk (trimChars s.data)

/-- JS `.replace(/\s+/g, ' ')`: collapse each maximal whitespace run into a
single space. -/
def collapseWs : List Char → List Char
  | [] => []
  | c :: t =>
    let r := collapseWs t
    if isJsSpace c then
      match r with
      | d :: r' => if d = ' ' then r else ' ' :: d :: r'
      | [] => [' ']
    else c :: r

/-- JS `parseInt(text.replace(/[^0-9]/g, ''), 10)`: strip the non-digits, then
parse; `none` models the `NaN` returned when no digit remains. -/
def parseIntDigits (s : String) : Option ℕ :=
  let ds := s.data.filter Char.isDigit
  if ds.isEmpty then none
  else some (ds.foldl (fun n c => n * 10 + (c.toNat - 48)) 0)

/-! ## JavaScript numbers as seen by the integrity gate -/

/-- A JavaScript number as the integrity gate can meet it when revalidating
previously persisted JSON: a finite value, `NaN`, or a signed infinity. -/
inductive JsNum where
  | num (q : ℚ)
  | nan
  | posInf
  | negInf
deriving DecidableEq, Repr

/-- JS `isNaN` on a number. -/
def jsIsNaN : JsNum → Bool
  | .nan => true
  | _ => false

/-- JS `<` on numbers: any comparison with `NaN` is false. -/
def jsLt : JsNum → JsNum → Bool
  | .nan, _ => false
  | _, .nan => false
  | .num a, .num b => decide (a < b)
  | .num _, .posInf => true
  | .num _, .negInf => false
  | .posInf, _ => false
  | .negInf, .negInf => false
  | .negInf, _ => true

/-- JS `<` where either side may be `undefined` (a comparison against
`undefined` coerces to `NaN` and is false). -/
def jsLtOpt : Option JsNum → Option JsNum → Bool
  | some a, some b => jsLt a b
  | _, _ => false

/-! ## Integrity gate (`scripts/scrape-fbref.js`, `validateResults` / `main`)

The persisted `results.json` rows carry more fields than the gate reads; the
embedding keeps exactly the fields `validateResults` touches
(`participant` and the pool's total). -/

/-- A `team_pool` row as read by the gate. -/
structure TeamPoolRow where
  participant : String
  total_points : Option JsNum
deriving DecidableEq, Repr

/-- A `goals_pool` row as read by the gate. -/
structure GoalsPoolRow where
  participant : String
  total_goals : Option JsNum
deriving DecidableEq, Repr

/-- The shape of a (new or previously persisted) result set seen by the gate.
A JSON document lacking a pool is embedded with the empty list: iterating
`[]` and skipping an absent pool behave identically. -/
structure GateResults where
  team_pool : List TeamPoolRow
  goals_pool : List GoalsPoolRow
deriving DecidableEq, Repr

/-- One entry of the `errors` array of `validateResults`.  The source pushes a
formatted string; the embedding keeps the rule tag, the participant and the
interpolated values (the data the message is built from). -/
inductive ValError where
  | ruleBTeam (participant : String) (value : Option JsNum)
  | ruleBGoals (participant : String) (value : Option JsNum)
  | ruleATeam (participant : String) (oldVal newVal : Option JsNum)
  | ruleAGoals (participant : String) (oldVal newVal : Option JsNum)
deriving DecidableEq, Repr

/-- The Rule B test on one total:
`entry.total == null || isNaN(entry.total) || entry.total < 0`. -/
def isInvalidTotal (v : Option JsNum) : Bool :=
  match v with
  | none => true
  | some x => jsIsNaN x || jsLt x (.num 0)

/-- Rule B over the team pool, in push order. -/
def ruleBTeamErrors (pool : List TeamPoolRow) : List ValError :=
  pool.filterMap fun e =>
    if isInvalidTotal e.total_points then some (.ruleBTeam e.participant e.total_points)
    else none

/-- Rule B over the goals pool, in push order. -/
def ruleBGoalsErrors (pool : List GoalsPoolRow) : List ValError :=
  pool.filterMap fun e =>
    if isInvalidTotal e.total_goals then some (.ruleBGoals e.participant e.total_goals)
    else none

/-- Rule A over the team pool: for each previous row, look up the first new
row with the same participant (`Array.prototype.find`); flag it when the new
total is strictly below the previous one. An absent participant is skipped. -/
def ruleATeamErrors (newPool : List TeamPoolRow) (prevPool : List TeamPoolRow) :
    List ValError :=
  prevPool.filterMap fun prev =>
    match newPool.find? (fun e => e.participant == prev.participant) with
    | some curr =>
      if jsLtOpt curr.total_points prev.total_points then
        some (.ruleATeam prev.participant prev.total_points curr.total_points)
      else none
    | none => none

/-- Rule A over the goals pool. -/
def ruleAGoalsErrors (newPool : List GoalsPoolRow) (prevPool : List GoalsPoolRow) :
    List ValError :=
  prevPool.filterMap fun prev =>
    match newPool.find? (fun e => e.participant == prev.participant) with
    | some curr =>
      if jsLtOpt curr.total_goals prev.total_goals then
        some (.ruleAGoals prev.participant prev.total_goals curr.total_goals)
      else none
    | none => none

/-- Result of `validateResults`: `{ valid: errors.length === 0, errors }`. -/
structure ValidationResult where
  valid : Bool
  errors : List ValError
deriving DecidableEq, Repr

/-- The `errors` array accumulated by `validateResults`: Rule B on both
pools, then Rule A against the previous snapshot when one exists, in push
order. -/
def gateErrors (newResults : GateResults) (previousResults : Option GateResults) :
    List ValError :=
  ruleBTeamErrors newResults.team_pool ++
  ruleBGoalsErrors newResults.goals_pool ++
  (match previousResults with
   | some prev => ruleATeamErrors newResults.team_pool prev.team_pool ++
                  ruleAGoalsErrors newResults.goals_pool prev.goals_pool
   | none => [])

/-- Source `validateResults(newResults, previousResults)`:
`{ valid: errors.length === 0, errors }`. -/
def validateResults (newResults : GateResults) (previousResults : Option GateResults) :
    ValidationResult :=
  { valid := (gateErrors newResults previousResults).length == 0
    errors := gateErrors newResults previousResults }

/-- Phases 4–5 of `main`: run the gate over the freshly computed results and
the previously persisted snapshot; on failure `process.exit(1)` before any
write, on success write the new snapshot. Returns the process exit status and
the content of the persisted file afterwards. -/
def runGate (results : GateResults) (previous : Option GateResults) :
    ℕ × Option GateResults :=
  if (validateResults results previous).valid then (0, some results)
  else (1, previous)

/-! ## Rules engine (`js/rules-engine.js`)

Pure computation layer. All numbers reaching these functions are finite, so
they are embedded as `ℚ`; an absent/`null` field is `none`, and the JS
`x || 0` default becomes `Option.getD 0`. -/

/-- Source `SUPERCUP_KEYWORDS`. -/
def SUPERCUP_KEYWORDS : List String :=
  ["super cup", "supercup", "community shield", "supercopa",
   "supercoppa", "trophée des champions", "dfl-supercup"]

/-- Source `isSupercup(competitionName)`: case-insensitive keyword containment.
(The `(competitionName || '')` default is applied by the caller's embedding.) -/
def isSupercup (competitionName : String) : Bool :=
  let lower := jsToLower competitionName
  SUPERCUP_KEYWORDS.any fun kw => jsIncludes lower kw

/-- Source `DOMESTIC_CUP_MILESTONES` keyed by milestone string;
`none` models an absent key. -/
def DOMESTIC_CUP_MILESTONES (m : String) : Option ℚ :=
  if m == "winner" then some 15
  else if m == "runner_up" then some 12
  else if m == "semifinal" then some 8
  else none

/-- Source `UEFA_CUP_MILESTONES` keyed by competition then milestone. -/
def UEFA_CUP_MILESTONES (competition : String) : Option (String → Option ℚ) :=
  if competition == "champions_league" then
    some fun m =>
      if m == "winner" then some 20
      else if m == "runner_up" then some 15
      else if m == "semifinal" then some 10
      else none
  else if competition == "europa_league" then
    some fun m =>
      if m == "winner" then some 12
      else if m == "runner_up" then some 10
      else if m == "semifinal" then some 6
      else none
  else if competition == "conference_league" then
    some fun m =>
      if m == "winner" then some 12
      else if m == "runner_up" then some 10
      else if m == "semifinal" then some 6
      else none
  else none

/-- Record `{ milestone }` cup-progress record (domestic). -/
structure DomesticCup where
  milestone : Option String
deriving DecidableEq, Repr

/-- Record `{ competition, milestone }` cup-progress record (UEFA). -/
structure UefaCup where
  competition : Option String
  milestone : Option String
deriving DecidableEq, Repr

/-- Source `getDomesticCupBonus(cupProgress)`:
`if (!cupProgress || !cupProgress.milestone) return 0; return TABLE[m] || 0`. -/
def getDomesticCupBonus (cupProgress : Option DomesticCup) : ℚ :=
  match cupProgress with
  | none => 0
  | some cp =>
    match cp.milestone with
    | none => 0
    | some m => (DOMESTIC_CUP_MILESTONES m).getD 0

/-- Source `getUefaCupBonus(cupProgress)`: absent record, competition or milestone
gives 0; otherwise the two-level table lookup with `|| 0` defaults. -/
def getUefaCupBonus (cupProgress : Option UefaCup) : ℚ :=
  match cupProgress with
  | none => 0
  | some cp =>
    match cp.competition, cp.milestone with
    | some c, some m =>
      match UEFA_CUP_MILESTONES c with
      | none => 0
      | some tier => (tier m).getD 0
    | _, _ => 0

/-- The raw per-team metrics handed to `calculateTeamPoints`. -/
structure TeamData where
  league_points : Option ℚ
  uefa_league_phase_points : Option ℚ
  domestic_cup : Option DomesticCup
  uefa_cup : Option UefaCup
deriving Repr

/-- The empty object `{}` used when a team has no API data. -/
def TeamData.empty : TeamData := ⟨none, none, none, none⟩

/-- The record returned by `calculateTeamPoints`. -/
structure TeamScore where
  total : ℚ
  league_points : ℚ
  uefa_points : ℚ
  domestic_cup_points : ℚ
deriving DecidableEq, Repr

/-- Source `calculateTeamPoints(teamData)`. -/
def calculateTeamPoints (teamData : TeamData) : TeamScore :=
  let league := teamData.league_points.getD 0
  let uefaPhase := teamData.uefa_league_phase_points.getD 0
  let domesticBonus := getDomesticCupBonus teamData.domestic_cup
  let uefaBonus := getUefaCupBonus teamData.uefa_cup
  { total := league + uefaPhase + domesticBonus + uefaBonus
    league_points := league
    uefa_points := uefaPhase + uefaBonus
    domestic_cup_points := domesticBonus }

/-- A goal event `{ date, minute, type, competition }`; the date is an integer
timestamp, `competition` may be absent. -/
structure GoalEvent where
  date : ℤ
  minute : ℤ
  type : String
  competition : Option String
deriving DecidableEq, Repr

/-- Source `calculatePlayerGoals(goals, activeFromDate)`: `none` models a missing or
non-array `goals` argument. The filter mirrors the source's early-return
chain. -/
def calculatePlayerGoals (goals : Option (List GoalEvent)) (activeFromDate : ℤ) : ℕ :=
  match goals with
  | none => 0
  | some gs =>
    (gs.filter fun goal =>
      if goal.date < activeFromDate then false
      else if goal.type == "penalty_shootout" then false
      else if goal.type == "own_goal" then false
      else if isSupercup (goal.competition.getD "") then false
      else true).length

/-- One `{ participant, total }` standing handed to `calculatePayouts`. -/
structure Standing where
  participant : String
  total : ℚ
deriving DecidableEq, Repr

/-- One `{ participant, payout }` row returned by `calculatePayouts`. -/
structure PayoutRow where
  participant : String
  payout : ℚ
deriving DecidableEq, Repr

/-- Source `payouts.find(p => p.participant === name).payout = amt`: mutate the first
row with the given participant. (In the source a failed `find` would throw; in
every reachable call the participant is present.) -/
def setFirstPayout (l : List PayoutRow) (name : String) (amt : ℚ) : List PayoutRow :=
  match l with
  | [] => []
  | p :: t =>
    if p.participant == name then { p with payout := amt } :: t
    else p :: setFirstPayout t name amt

/-- The `sort((a, b) => b.total - a.total)` order: `a` may stay before `b`
exactly when the comparator is ≤ 0. -/
def byTotalDesc (a b : Standing) : Prop := b.total ≤ a.total

instance : DecidableRel byTotalDesc := fun a b => inferInstanceAs (Decidable (b.total ≤ a.total))

/-- Code-point lexicographic comparison of character lists (the embedding of
`a.localeCompare(b) <= 0`). -/
def charListLe : List Char → List Char → Bool
  | [], _ => true
  | _ :: _, [] => false
  | a :: as, b :: bs =>
    if a < b then true
    else if b < a then false
    else charListLe as bs

/-- The `sort((a, b) => a.participant.localeCompare(b.participant))` order
(`localeCompare` embedded as code-point order on the participant strings). -/
def byNameAsc (a b : Standing) : Prop :=
  charListLe a.participant.data b.participant.data = true

instance : DecidableRel byNameAsc :=
  fun a b =>
    inferInstanceAs (Decidable (charListLe a.participant.data b.participant.data = true))

/-- The `payouts` array all branches start from: one zero-payout row per
sorted standing. -/
def payoutsBase (sorted : List Standing) : List PayoutRow :=
  sorted.map fun s => PayoutRow.mk s.participant 0

/-- The 2-way-tie branch of `calculatePayouts`: every participant standing at
the top score gets 150. -/
def payoutsTwoWayTie (sorted : List Standing) (topScore : ℚ) : List PayoutRow :=
  (payoutsBase sorted).map fun p =>
    if (sorted.find? fun s =>
        s.participant == p.participant && decide (s.total = topScore)).isSome then
      { p with payout := 150 }
    else p

/-- The 3-or-more-way-tie branch of `calculatePayouts`: the alphabetically
first tied participant gets 250; the first standing strictly below the top
score (if any) gets 50. -/
def payoutsThreeWayTie (sorted : List Standing) (topScore : ℚ) : List PayoutRow :=
  match (sorted.filter fun s => decide (s.total = topScore)).insertionSort byNameAsc with
  | [] => payoutsBase sorted -- unreachable: the tied group is non-empty
  | winner :: _ =>
    let paid := setFirstPayout (payoutsBase sorted) winner.participant 250
    match sorted.filter (fun s => decide (s.total < topScore)) with
    | [] => paid
    | runner :: _ => setFirstPayout paid runner.participant 50

/-- The clear-first-place branch of `calculatePayouts`:
`payouts[0].payout = 250`, and `payouts[1].payout = 50` when present. -/
def payoutsClearFirst (sorted : List Standing) : List PayoutRow :=
  match payoutsBase sorted with
  | [] => [] -- unreachable
  | p0 :: rest =>
    { p0 with payout := 250 } ::
      (match rest with
       | [] => []
       | p1 :: rest' => { p1 with payout := 50 } :: rest')

/-- Source `calculatePayouts(standings)` (`js/rules-engine.js`): sort descending by
total, count the participants tied at the top score, and dispatch on the tie
size. -/
def calculatePayouts (standings : List Standing) : List PayoutRow :=
  if standings.isEmpty then []
  else
    let sorted := standings.insertionSort byTotalDesc
    match sorted with
    | [] => [] -- unreachable: a sort of a non-empty list is non-empty
    | top :: _ =>
      let topScore := top.total
      let tiedForFirst := sorted.filter fun s => decide (s.total = topScore)
      if tiedForFirst.length == 2 then payoutsTwoWayTie sorted topScore
      else if 3 ≤ tiedForFirst.length then payoutsThreeWayTie sorted topScore
      else payoutsClearFirst sorted

/-- Per-team breakdown row pushed into a `team_pool` entry by `computeResults`. -/
structure TeamBreakdown where
  name : String
  league_points : ℚ
  uefa_points : ℚ
  domestic_cup_points : ℚ
deriving DecidableEq, Repr

/-- A `team_pool` entry built by `computeResults`. -/
structure TeamPoolEntry where
  participant : String
  total_points : ℚ
  rank : ℕ
  teams : List TeamBreakdown
deriving DecidableEq, Repr

/-- Per-player breakdown row pushed into a `goals_pool` entry. -/
structure PlayerBreakdown where
  name : String
  goals : ℕ
deriving DecidableEq, Repr

/-- A `goals_pool` entry built by `computeResults`. -/
structure GoalsPoolEntry where
  participant : String
  total_goals : ℕ
  rank : ℕ
  players : List PlayerBreakdown
deriving DecidableEq, Repr

/-- One roster: a participant with owned teams (by name) and players
(name plus `active_from_date`). -/
structure RosterPlayer where
  name : String
  active_from_date : ℤ
deriving DecidableEq, Repr

/-- One participant's roster record. -/
structure Roster where
  participant : String
  teams : List String
  players : List RosterPlayer
deriving DecidableEq, Repr

/-- Parsed `rosters.json` (`pool_metadata.season` kept as `season`). -/
structure Rosters where
  rosters : List Roster
  season : String

/-- Raw API data: dynamic maps from team name to metrics and from player name
to goal events (`none` = key absent, defaulted with `|| {}` / `|| []`). -/
structure ApiData where
  teams : String → Option TeamData
  players : String → Option (List GoalEvent)

/-- The result record built by `computeResults`. -/
structure EngineResults where
  last_updated : String
  season : String
  team_pool : List TeamPoolEntry
  goals_pool : List GoalsPoolEntry

/-- Source `teamPool.forEach((entry, i) => { entry.rank = i + 1 })` starting at `i`. -/
def assignTeamRanks (i : ℕ) : List TeamPoolEntry → List TeamPoolEntry
  | [] => []
  | e :: t => { e with rank := i } :: assignTeamRanks (i + 1) t

/-- Source `goalsPool.forEach((entry, i) => { entry.rank = i + 1 })` starting at `i`. -/
def assignGoalsRanks (i : ℕ) : List GoalsPoolEntry → List GoalsPoolEntry
  | [] => []
  | e :: t => { e with rank := i } :: assignGoalsRanks (i + 1) t

/-- Sort order of `teamPool.sort((a, b) => b.total_points - a.total_points)`. -/
def byTeamPoints (a b : TeamPoolEntry) : Prop := b.total_points ≤ a.total_points

instance : DecidableRel byTeamPoints :=
  fun a b => inferInstanceAs (Decidable (b.total_points ≤ a.total_points))

/-- Sort order of `goalsPool.sort((a, b) => b.total_goals - a.total_goals)`. -/
def byGoals (a b : GoalsPoolEntry) : Prop := b.total_goals ≤ a.total_goals

instance : DecidableRel byGoals :=
  fun a b => inferInstanceAs (Decidable (b.total_goals ≤ a.total_goals))

/-- The unranked `team_pool` entry built for one roster: the loop accumulating
`participantTeamTotal` and `teamBreakdowns` over `roster.teams`. -/
def teamEntryFor (apiData : ApiData) (roster : Roster) : TeamPoolEntry :=
  let breakdowns := roster.teams.map fun name =>
    let scored := calculateTeamPoints ((apiData.teams name).getD TeamData.empty)
    TeamBreakdown.mk name scored.league_points scored.uefa_points scored.domestic_cup_points
  let total := (roster.teams.map fun name =>
    (calculateTeamPoints ((apiData.teams name).getD TeamData.empty)).total).sum
  { participant := roster.participant, total_points := total, rank := 0, teams := breakdowns }

/-- The unranked `goals_pool` entry built for one roster. -/
def goalsEntryFor (apiData : ApiData) (roster : Roster) : GoalsPoolEntry :=
  let breakdowns := roster.players.map fun player =>
    PlayerBreakdown.mk player.name
      (calculatePlayerGoals (some ((apiData.players player.name).getD [])) player.active_from_date)
  let total := (roster.players.map fun player =>
    calculatePlayerGoals (some ((apiData.players player.name).getD [])) player.active_from_date).sum
  { participant := roster.participant, total_goals := total, rank := 0, players := breakdowns }

/-- Source `computeResults(rosters, apiData)` (`js/rules-engine.js`); the
`new Date().toISOString()` side effect is passed in as `now`. -/
def computeResults (rosters : Rosters) (apiData : ApiData) (now : String) : EngineResults :=
  let teamPool := rosters.rosters.map (teamEntryFor apiData)
  let goalsPool := rosters.rosters.map (goalsEntryFor apiData)
  { last_updated := now
    season := rosters.season
    team_pool := assignTeamRanks 1 (teamPool.insertionSort byTeamPoints)
    goals_pool := assignGoalsRanks 1 (goalsPool.insertionSort byGoals) }

/-! ## Display payouts (`js/views.js`, `computePoolPayouts`)

The function is generic over the name of the total field (`total_points` /
`total_goals`); the embedding works on `{ participant, total }` pairs with the
field already selected. -/

/-- One row of the Winningz payout display. -/
structure DisplayPayout where
  participant : String
  total : ℚ
  payout : ℚ
  place : String
  isTied : Bool
deriving DecidableEq, Repr

/-- Source `computePoolPayouts(pool, totalKey)`: any 2-or-more-way tie at the top
splits the 300 pot evenly (`Math.floor(300 / k)`) among the tied entries and
returns only those rows; otherwise first and (when present) second place rows. -/
def computePoolPayouts (pool : List Standing) : List DisplayPayout :=
  if pool.isEmpty then []
  else
    let sorted := pool.insertionSort byTotalDesc
    match sorted with
    | [] => [] -- unreachable
    | top :: rest =>
      let topScore := top.total
      let tiedForFirst := sorted.filter fun s => decide (s.total = topScore)
      if 2 ≤ tiedForFirst.length then
        let splitAmount : ℚ := (⌊(300 : ℚ) / tiedForFirst.length⌋ : ℤ)
        tiedForFirst.map fun s =>
          DisplayPayout.mk s.participant s.total splitAmount "1st (T)" true
      else
        DisplayPayout.mk top.participant top.total 250 "1st" false ::
          (match rest with
           | [] => []
           | second :: _ => [DisplayPayout.mk second.participant second.total 50 "2nd" false])

/-! ## Name matching (`scripts/scrape-fbref.js`) -/

/-- Unicode NFD decomposition restricted to the accented letters occurring in
this repository's alias tables and page data (a letter with no canonical
decomposition, e.g. `ø`, maps to itself, exactly as under NFD). -/
def nfdChar (c : Char) : List Char :=
  match c with
  | 'á' => ['a', '́'] | 'à' => ['a', '̀'] | 'â' => ['a', '̂']
  | 'ä' => ['a', '̈'] | 'å' => ['a', '̊']
  | 'é' => ['e', '́'] | 'è' => ['e', '̀'] | 'ê' => ['e', '̂']
  | 'ë' => ['e', '̈']
  | 'í' => ['i', '́'] | 'ì' => ['i', '̀'] | 'î' => ['i', '̂']
  | 'ï' => ['i', '̈']
  | 'ó' => ['o', '́'] | 'ò' => ['o', '̀'] | 'ô' => ['o', '̂']
  | 'ö' => ['o', '̈']
  | 'ú' => ['u', '́'] | 'ù' => ['u', '̀'] | 'û' => ['u', '̂']
  | 'ü' => ['u', '̈']
  | 'ç' => ['c', '̧'] | 'ñ' => ['n', '̃'] | 'ý' => ['y', '́']
  | 'š' => ['s', '̌'] | 'ž' => ['z', '̌'] | 'ć' => ['c', '́']
  | 'č' => ['c', '̌']
  | 'Á' => ['A', '́'] | 'À' => ['A', '̀'] | 'Â' => ['A', '̂']
  | 'Ä' => ['A', '̈']
  | 'É' => ['E', '́'] | 'È' => ['E', '̀'] | 'Ê' => ['E', '̂']
  | 'Í' => ['I', '́'] | 'Ì' => ['I', '̀']
  | 'Ó' => ['O', '́'] | 'Ò' => ['O', '̀'] | 'Ö' => ['O', '̈']
  | 'Ú' => ['U', '́'] | 'Ü' => ['U', '̈']
  | 'Ç' => ['C', '̧'] | 'Ñ' => ['N', '̃']
  | 'Š' => ['S', '̌'] | 'Ž' => ['Z', '̌'] | 'Ć' => ['C', '́']
  | 'Č' => ['C', '̌']
  | c => [c]

/-- Source `normalize(str)`: NFD-decompose, strip combining marks `[̀-ͯ]`,
lowercase, strip `[^a-z0-9\s]`, collapse whitespace runs, trim. -/
def normalizeName (s : String) : String :=
  let decomposed := (s.data.map nfdChar).flatten
  let noMarks := decomposed.filter fun c => decide (c.toNat < 0x300 ∨ 0x36F < c.toNat)
  let lowered := noMarks.map jsToLowerChar
  let kept := lowered.filter fun c =>
    decide (('a' ≤ c ∧ c ≤ 'z') ∨ ('0' ≤ c ∧ c ≤ '9')) || isJsSpace c
  String.mk (trimChars (collapseWs kept))

/-- The literal `.mw-parser-output` scanned for by the wiki-artifact regex. -/
def patMw : List Char := ".mw-parser-output".data

/-- The suffix starting at the first ASCII uppercase letter, if any (the
lookahead `(?=[A-Z])` of the artifact regex). -/
def findUpperSuffix : List Char → Option (List Char)
  | [] => none
  | c :: t => if 'A' ≤ c ∧ c ≤ 'Z' then some (c :: t) else findUpperSuffix t

/-- Regex `.replace(/\.mw-parser-output[\s\S]*?(?=[A-Z])/g, '')`: at each occurrence
of the literal, lazily drop up to (not including) the next uppercase letter;
an occurrence with no following uppercase letter does not match. The fuel is
the input length, which bounds the number of steps. -/
def removeMwAux : ℕ → List Char → List Char
  | 0, l => l
  | _ + 1, [] => []
  | fuel + 1, c :: t =>
    if patMw.isPrefixOf (c :: t) then
      match findUpperSuffix (List.drop 17 (c :: t)) with
      | some rest => removeMwAux fuel rest
      | none => c :: removeMwAux fuel t
    else c :: removeMwAux fuel t

/-- The wiki-artifact removal on a character list. -/
def removeMw (l : List Char) : List Char := removeMwAux l.length l

/-- Regex `.replace(/\([a-z]\)$/i, '')`: strip one trailing parenthesized letter. -/
def stripParenLetter (l : List Char) : List Char :=
  match l.reverse with
  | ')' :: c :: '(' :: rest =>
    if ('a' ≤ c ∧ c ≤ 'z') ∨ ('A' ≤ c ∧ c ≤ 'Z') then rest.reverse else l
  | _ => l

/-- The cleanup chain at the top of `matchTeamName`. -/
def cleanWikiTeamName (wikiName : String) : String :=
  jsTrim (String.mk (stripParenLetter (removeMw wikiName.data)))

/-- Source `TEAM_ALIASES`, in source (insertion) order. -/
def TEAM_ALIASES : List (String × List String) :=
  [("Manchester City", ["Manchester City", "Man City"]),
   ("Atletico Madrid", ["Atlético Madrid", "Atletico Madrid", "Atlético de Madrid"]),
   ("Benfica", ["Benfica", "SL Benfica", "S.L. Benfica"]),
   ("Ajax", ["Ajax", "AFC Ajax"]),
   ("Feyenoord", ["Feyenoord"]),
   ("Fiorentina", ["Fiorentina", "ACF Fiorentina"]),
   ("Bayern Munich", ["Bayern Munich", "Bayern München", "FC Bayern Munich"]),
   ("Liverpool", ["Liverpool"]),
   ("Borussia Dortmund", ["Borussia Dortmund", "Dortmund"]),
   ("Sporting CP", ["Sporting CP", "Sporting"]),
   ("Atalanta", ["Atalanta", "Atalanta BC"]),
   ("Lyon", ["Lyon", "Olympique Lyonnais"]),
   ("Arsenal", ["Arsenal"]),
   ("Chelsea", ["Chelsea"]),
   ("Celtic", ["Celtic"]),
   ("Fenerbahce", ["Fenerbahçe", "Fenerbahce"]),
   ("Slavia Praha", ["Slavia Prague", "Slavia Praha", "SK Slavia Prague"]),
   ("AS Monaco", ["Monaco", "AS Monaco"]),
   ("Real Madrid", ["Real Madrid"]),
   ("Inter Milan", ["Inter Milan", "Internazionale", "Inter", "FC Internazionale Milano"]),
   ("Red Star Belgrade", ["Red Star Belgrade", "Crvena Zvezda", "Red Star"]),
   ("Olympiacos", ["Olympiacos", "Olympiakos", "Olympiacos F.C."]),
   ("Sparta Praha", ["Sparta Prague", "Sparta Praha", "AC Sparta Prague"]),
   ("Union SG", ["Union SG", "Royale Union Saint-Gilloise", "Union Saint-Gilloise",
                 "Union St.-Gilloise", "R. Union SG"]),
   ("PSG", ["Paris Saint-Germain", "PSG", "Paris S-G"]),
   ("Napoli", ["Napoli", "S.S.C. Napoli", "SSC Napoli"]),
   ("FC Porto", ["Porto", "FC Porto"]),
   ("Bayer Leverkusen", ["Bayer Leverkusen", "Bayer 04 Leverkusen", "Leverkusen"]),
   ("Rangers", ["Rangers", "Rangers F.C."]),
   ("Ipswich Town", ["Ipswich Town", "Ipswich"]),
   ("Barcelona", ["Barcelona", "FC Barcelona"]),
   ("Galatasaray", ["Galatasaray"]),
   ("PSV Eindhoven", ["PSV Eindhoven", "PSV"]),
   ("Aston Villa", ["Aston Villa"]),
   ("AS Roma", ["Roma", "AS Roma", "A.S. Roma"]),
   ("Strasbourg", ["Strasbourg", "RC Strasbourg Alsace", "RC Strasbourg"])]

/-- Source `PLAYER_ALIASES`, in source (insertion) order. -/
def PLAYER_ALIASES : List (String × List String) :=
  [("Kylian Mbappe", ["Kylian Mbappé", "Mbappé"]),
   ("Alexander Isak", ["Alexander Isak"]),
   ("Serhou Guirassy", ["Serhou Guirassy"]),
   ("Jhon Duran", ["Jhon Durán", "Jhon Duran"]),
   ("Rasmus Højlund", ["Rasmus Højlund"]),
   ("Mika Biereth", ["Mika Biereth"]),
   ("Erling Haaland", ["Erling Haaland"]),
   ("Bukayo Saka", ["Bukayo Saka"]),
   ("Bradley Barcola", ["Bradley Barcola"]),
   ("Julian Alvarez", ["Julián Álvarez", "Julian Álvarez"]),
   ("Jonathan David", ["Jonathan David"]),
   ("Victor Aghehowa", ["Victor Aghehowa"]),
   ("Viktor Gyökeres", ["Viktor Gyökeres"]),
   ("Raphinha", ["Raphinha"]),
   ("Lamine Yamal", ["Lamine Yamal"]),
   ("Michael Olise", ["Michael Olise"]),
   ("Cody Gakpo", ["Cody Gakpo"]),
   ("Desire Doue", ["Désiré Doué", "Desiré Doué"]),
   ("Robert Lewandowski", ["Robert Lewandowski"]),
   ("Ousmane Dembele", ["Ousmane Dembélé"]),
   ("Vangelis Pavlidis", ["Vangelis Pavlidis", "Evangelos Pavlidis"]),
   ("Alexander Sorloth", ["Alexander Sørloth"]),
   ("Moise Kean", ["Moise Kean"]),
   ("Ollie Watkins", ["Ollie Watkins"]),
   ("Mohamed Salah", ["Mohamed Salah"]),
   ("Victor Osimhen", ["Victor Osimhen"]),
   ("Vinícius Júnior", ["Vinícius Júnior", "Vinicius Junior", "Vinícius Jr."]),
   ("Cole Palmer", ["Cole Palmer"]),
   ("Lois Openda", ["Loïs Openda", "Lois Openda"]),
   ("Dusan Vlahovic", ["Dušan Vlahović", "Dusan Vlahovic"]),
   ("Harry Kane", ["Harry Kane"]),
   ("Lautaro Martinez", ["Lautaro Martínez"]),
   ("Omar Marmoush", ["Omar Marmoush"]),
   ("Hugo Ekitike", ["Hugo Ekitike"]),
   ("Alassane Plea", ["Alassane Pléa"]),
   ("Emanuel Emegha", ["Emanuel Emegha"])]

/-- The exact-match pass: first table entry one of whose normalized aliases,
or whose normalized canonical name, equals the normalized raw name. -/
def findExact : List (String × List String) → String → Option String
  | [], _ => none
  | (rosterName, aliases) :: rest, wikiNorm =>
    if aliases.any (fun als => normalizeName als == wikiNorm) ||
        normalizeName rosterName == wikiNorm then some rosterName
    else findExact rest wikiNorm

/-- The partial-match pass as written in the source:
`aN.length > 4 && (wikiNorm.startsWith(aN) || wikiNorm.includes(aN))`. -/
def findSubstringPass : List (String × List String) → String → Option String
  | [], _ => none
  | (rosterName, aliases) :: rest, wikiNorm =>
    if aliases.any (fun als =>
        let aN := normalizeName als
        decide (4 < aN.length) && (jsStartsWith wikiNorm aN || jsIncludes wikiNorm aN))
    then some rosterName
    else findSubstringPass rest wikiNorm

/-- Source `matchTeamName(wikiName)`: cleanup, normalize, exact pass, partial pass. -/
def matchTeamName (wikiName : String) : Option String :=
  let wikiNorm := normalizeName (cleanWikiTeamName wikiName)
  match findExact TEAM_ALIASES wikiNorm with
  | some rosterName => some rosterName
  | none => findSubstringPass TEAM_ALIASES wikiNorm

/-- Source `matchPlayerName(wikiName)`: normalize and run the exact pass only. -/
def matchPlayerName (wikiName : String) : Option String :=
  findExact PLAYER_ALIASES (normalizeName wikiName)

/-- The substring rule exactly as the specification words it: the normalized
raw name contains the alias *or vice versa* (alias contains the raw name). -/
def findSubstringPassSpec : List (String × List String) → String → Option String
  | [], _ => none
  | (rosterName, aliases) :: rest, wikiNorm =>
    if aliases.any (fun als =>
        let aN := normalizeName als
        decide (4 < aN.length) && (jsIncludes wikiNorm aN || jsIncludes aN wikiNorm))
    then some rosterName
    else findSubstringPassSpec rest wikiNorm

/-- Team matching as the specification describes it (with the `or vice versa`
substring rule). -/
def matchTeamNameSpec (wikiName : String) : Option String :=
  let wikiNorm := normalizeName (cleanWikiTeamName wikiName)
  match findExact TEAM_ALIASES wikiNorm with
  | some rosterName => some rosterName
  | none => findSubstringPassSpec TEAM_ALIASES wikiNorm

/-- The amended substring rule: only "the normalized raw name contains the
alias" (the source's `startsWith` disjunct is subsumed by `includes`). -/
def findSubstringPassAmended : List (String × List String) → String → Option String
  | [], _ => none
  | (rosterName, aliases) :: rest, wikiNorm =>
    if aliases.any (fun als =>
        let aN := normalizeName als
        decide (4 < aN.length) && jsIncludes wikiNorm aN)
    then some rosterName
    else findSubstringPassAmended rest wikiNorm

/-- Team matching as amended: exact pass, then the one-directional substring
pass. -/
def matchTeamNameAmended (wikiName : String) : Option String :=
  let wikiNorm := normalizeName (cleanWikiTeamName wikiName)
  match findExact TEAM_ALIASES wikiNorm with
  | some rosterName => some rosterName
  | none => findSubstringPassAmended TEAM_ALIASES wikiNorm

/-! ## Squad-appearances table parsing (`scripts/scrape-fbref.js`,
`parseTeamGoalscorers` helpers)

A table is embedded as its rows, each row the list of its cells' text
contents (`find('th, td')`, text extraction of a cell — including the
link-text preference — abstracted to the cell's displayed string). -/

/-- Regex `/^(Player|Name)$/i` on a header. -/
def isPlayerHeader (h : String) : Bool :=
  jsToLower h == "player" || jsToLower h == "name"

/-- Source `findTotalColumn(headers)`: exact `Total`, else `/^Season total$/i`, else
`/^Career club total$/i`; `none` models the `-1` sentinel. -/
def findTotalColumn (headers : List String) : Option ℕ :=
  match headers.findIdx? (fun h => h == "Total") with
  | some idx => some idx
  | none =>
    match headers.findIdx? (fun h => jsToLower h == "season total") with
    | some idx => some idx
    | none => headers.findIdx? (fun h => jsToLower h == "career club total")

/-- Source `detectAppsGoalsPattern($table)`: the concatenated text of the second row,
lowercased, contains both `apps` and `goals`. -/
def detectAppsGoalsPattern (rows : List (List String)) : Bool :=
  let subText := jsToLower (String.mk (((rows.getD 1 []).map String.data).flatten))
  jsIncludes subText "apps" && jsIncludes subText "goals"

/-- Cheerio `cells.eq(i).text()` with cheerio/jQuery semantics: a negative index
counts from the end, an out-of-range index yields an empty selection whose
text is the empty string. -/
def cellsEq (cells : List String) (i : ℤ) : String :=
  if i < 0 then
    if i + cells.length < 0 then "" else cells.getD (i + cells.length).toNat ""
  else cells.getD i.toNat ""

/-- Lazy global removal of one-level delimited segments,
`.replace(/\[.*?\]/g, '')` and `.replace(/\(.*?\)/g, '')`: each opener is
matched with the first following closer; an unclosed opener is kept. -/
def dropThroughClose (closer : Char) : List Char → Option (List Char)
  | [] => none
  | c :: t => if c = closer then some t else dropThroughClose closer t

/-- See `dropThroughClose`; fuel is the input length. -/
def stripDelimAux (opener closer : Char) : ℕ → List Char → List Char
  | 0, l => l
  | _ + 1, [] => []
  | fuel + 1, c :: t =>
    if c = opener then
      match dropThroughClose closer t with
      | some rest => stripDelimAux opener closer fuel rest
      | none => c :: stripDelimAux opener closer fuel t
    else c :: stripDelimAux opener closer fuel t

/-- Strip `opener…closer` segments (lazy, global). -/
def stripDelim (opener closer : Char) (l : List Char) : List Char :=
  stripDelimAux opener closer l.length l

/-- Regex `.replace(/\*$/, '')`. -/
def stripTrailingStar (l : List Char) : List Char :=
  match l.reverse with
  | '*' :: rest => rest.reverse
  | _ => l

/-- The player-name cleanup:
`.replace(/\[.*?\]/g, '').replace(/\(.*?\)/g, '').replace(/\*$/, '').trim()`. -/
def cleanName (s : String) : String :=
  String.mk (trimChars (stripTrailingStar (stripDelim '(' ')' (stripDelim '[' ']' s.data))))

/-- The fallback loop `for (ci = start; ci < cells.length; ci += 2)` summing
`parseInt` of every other cell, skipping `NaN`s, applied to the cells from
`start` on. -/
def sumEveryOther : List String → ℕ
  | [] => 0
  | [c] => (parseIntDigits c).getD 0
  | c :: _ :: rest => (parseIntDigits c).getD 0 + sumEveryOther rest

/-- Assignment `result[name] = goals` on a JS object in insertion order: overwrite the
existing key in place, else append. -/
def objSet (l : List (String × ℕ)) (k : String) (v : ℕ) : List (String × ℕ) :=
  match l with
  | [] => [(k, v)]
  | (k', v') :: t => if k' == k then (k, v) :: t else (k', v') :: objSet t k v

/-- The physical index of the Total goals sub-column for a row:
`infoCols + (totalHeaderIdx − infoCols) * 2 + 1` with `infoCols =
playerIdx + 1` (the source computes it as `totalAppsCell + 1` with
`totalAppsCell = infoCols + compIdx * 2`, `compIdx = totalHeaderIdx −
infoCols`; JS arithmetic may go negative, hence `ℤ`). -/
def totalGoalsCellIdx (playerIdx totalHeaderIdx : ℕ) : ℤ :=
  ((playerIdx : ℤ) + 1) + ((totalHeaderIdx : ℤ) - ((playerIdx : ℤ) + 1)) * 2 + 1

/-- The fallback of the squad-row goals computation: sum every other cell
after the information columns (`for (ci = infoCols + 1; ci < cells.length;
ci += 2)`), record when positive. -/
def squadFallbackGoals (playerIdx : ℕ) (cells : List String) : Option ℕ :=
  if 0 < sumEveryOther (cells.drop (playerIdx + 1 + 1)) then
    some (sumEveryOther (cells.drop (playerIdx + 1 + 1)))
  else none

/-- The goals computation for one data row of a squad-appearances table
(source lines: the `totalHeaderIdx` block and the odd-cell fallback): try the
Total goals sub-column, and record it when it parses to a positive number;
in every other case run the fallback sum. -/
def squadRowGoals (headers : List String) (playerIdx : ℕ) (cells : List String) :
    Option ℕ :=
  match (match findTotalColumn headers with
         | none => none
         | some totalHeaderIdx =>
           if totalGoalsCellIdx playerIdx totalHeaderIdx < (cells.length : ℤ) then
             match parseIntDigits
                 (cellsEq cells (totalGoalsCellIdx playerIdx totalHeaderIdx)) with
             | some g => if 0 < g then some g else none
             | none => none
           else none) with
  | some g => some g
  | none => squadFallbackGoals playerIdx cells

/-- Aggregate labels whose rows are skipped. -/
def squadSkipLabels : List String :=
  ["Goalkeepers", "Defenders", "Midfielders", "Forwards", "Total", "Totals"]

/-- Source `parseSquadAppearancesTable($table, headers, headerRowIdx)` with the
per-row goals computation factored out as a parameter (the source inlines
`rowGoals`; every other step is verbatim: require a Player/Name header and
the Apps|Goals sub-header row, walk the rows after the headers, skip short
rows and aggregate labels, clean the player cell's name). -/
def parseSquadTableCore (rowGoals : List String → ℕ → List String → Option ℕ)
    (rows : List (List String)) (headers : List String) (headerRowIdx : ℕ) :
    List (String × ℕ) :=
  match headers.findIdx? isPlayerHeader with
  | none => []
  | some playerIdx =>
    if !detectAppsGoalsPattern rows then []
    else
      (rows.drop (2 + headerRowIdx)).foldl
        (fun result cells =>
          if cells.length < 5 then result
          else
            let firstText := jsTrim (cells.getD 0 "")
            if squadSkipLabels.contains firstText then result
            else
              let playerCell := cells.getD (min playerIdx (cells.length - 1)) ""
              let name := cleanName playerCell
              if name.length < 2 then result
              else
                match rowGoals headers playerIdx cells with
                | some g => objSet result name g
                | none => result)
        []

/-- The squad-appearances parser as in the source. -/
def parseSquadAppearancesTable (rows : List (List String)) (headers : List String)
    (headerRowIdx : ℕ) : List (String × ℕ) :=
  parseSquadTableCore squadRowGoals rows headers headerRowIdx

/-- The per-row goals computation exactly as the specification words it: the
goals value is read from the designated cell whenever that cell resolves (a
Total header exists and the computed index lies in the row); *only* an
unresolvable cell falls back to the odd-indexed-cell sum. -/
def squadRowGoalsSpec (headers : List String) (playerIdx : ℕ) (cells : List String) :
    Option ℕ :=
  match findTotalColumn headers with
  | none => squadFallbackGoals playerIdx cells
  | some totalHeaderIdx =>
    if totalGoalsCellIdx playerIdx totalHeaderIdx < (cells.length : ℤ) then
      match parseIntDigits
          (cellsEq cells (totalGoalsCellIdx playerIdx totalHeaderIdx)) with
      | some g => if 0 < g then some g else none
      | none => none
    else squadFallbackGoals playerIdx cells

/-- The squad-appearances parser under the specification's per-row reading. -/
def parseSquadAppearancesTableSpec (rows : List (List String)) (headers : List String)
    (headerRowIdx : ℕ) : List (String × ℕ) :=
  parseSquadTableCore squadRowGoalsSpec rows headers headerRowIdx

/-- The amended per-row computation: the designated cell is used exactly when
it resolves *and* parses to a positive number; otherwise (including a
resolvable cell that parses to `NaN` or to a non-positive value) the
odd-indexed-cell sum is used, recorded when positive. -/
def squadRowGoalsAmended (headers : List String) (playerIdx : ℕ) (cells : List String) :
    Option ℕ :=
  match (match findTotalColumn headers with
         | none => none
         | some totalHeaderIdx =>
           if totalGoalsCellIdx playerIdx totalHeaderIdx < (cells.length : ℤ) then
             parseIntDigits (cellsEq cells (totalGoalsCellIdx playerIdx totalHeaderIdx))
           else none) with
  | some g => if 0 < g then some g else squadFallbackGoals playerIdx cells
  | none => squadFallbackGoals playerIdx cells

/-- The squad-appearances parser under the amended per-row reading. -/
def parseSquadAppearancesTableAmended (rows : List (List String)) (headers : List String)
    (headerRowIdx : ℕ) : List (String × ℕ) :=
  parseSquadTableCore squadRowGoalsAmended rows headers headerRowIdx

/-- The payout recorded for participant `q` in a payout list (the value the
claims inspect). -/
def lookupPayout (l : List PayoutRow) (q : String) : Option ℚ :=
  (l.find? fun e => e.participant == q).map fun e => e.payout

instance : IsTotal TeamPoolEntry byTeamPoints :=
  ⟨fun a b => le_total b.total_points a.total_points⟩

instance : IsTrans TeamPoolEntry byTeamPoints :=
  ⟨fun _ _ _ hab hbc => le_trans hbc hab⟩

instance : IsTotal GoalsPoolEntry byGoals :=
  ⟨fun a b => le_total b.total_goals a.total_goals⟩

instance : IsTrans GoalsPoolEntry byGoals :=
  ⟨fun _ _ _ hab hbc => le_trans hbc hab⟩

instance : IsTotal Standing byTotalDesc :=
  ⟨fun a b => le_total b.total a.total⟩

instance : IsTrans Standing byTotalDesc :=
  ⟨fun _ _ _ hab hbc => le_trans hbc hab⟩

/-- Concrete roster input for the C7 witness: two participants with equal
(zero) totals. -/
def rostersW : Rosters := ⟨[⟨"P1", [], []⟩, ⟨"P2", [], []⟩], "2025-26"⟩

/-- Concrete API data for the C7 witness: no source facts at all. -/
def apiW : ApiData := ⟨fun _ => none, fun _ => none⟩

/-! ## Theorems: the integrity gate -/

theorem gate_valid_false_of_mem {newR : GateResults} {prevO : Option GateResults}
    {err : ValError} (h : err ∈ gateErrors newR prevO) :
    (validateResults newR prevO).valid = false := by
  have hne : gateErrors newR prevO ≠ [] := List.ne_nil_of_mem h
  unfold validateResults
  cases hg : gateErrors newR prevO with
  | nil => exact absurd hg hne
  | cons a t => simp [hg]

theorem ruleBTeamErrors_eq_nil_iff (pool : List TeamPoolRow) :
    ruleBTeamErrors pool = [] ↔ ∀ e ∈ pool, isInvalidTotal e.total_points = false := by
  rw [ruleBTeamErrors, List.filterMap_eq_nil_iff]
  constructor
  · intro h e he
    have := h e he
    by_contra hb
    rw [Bool.not_eq_false] at hb
    simp [hb] at this
  · intro h e he
    simp [h e he]

theorem ruleBGoalsErrors_eq_nil_iff (pool : List GoalsPoolRow) :
    ruleBGoalsErrors pool = [] ↔ ∀ e ∈ pool, isInvalidTotal e.total_goals = false := by
  rw [ruleBGoalsErrors, List.filterMap_eq_nil_iff]
  constructor
  · intro h e he
    have := h e he
    by_contra hb
    rw [Bool.not_eq_false] at hb
    simp [hb] at this
  · intro h e he
    simp [h e he]

/-- Claim C1: whenever some participant of the previous snapshot appears in the
same pool of the new result set with a strictly smaller total (team points or
goals), `validateResults` returns `valid = false` with a Rule A error naming
that participant and both values, and the run exits with status 1 without
touching the persisted snapshot. -/
theorem c1_monotonicity_violation_aborts (prevR newR : GateResults) (p : String)
    (tp tn : ℚ) :
    ((∃ e ∈ prevR.team_pool, e.participant = p ∧ e.total_points = some (JsNum.num tp)) →
      (∃ c, newR.team_pool.find? (fun e => e.participant == p) = some c ∧
        c.total_points = some (JsNum.num tn)) →
      tn < tp →
      (validateResults newR (some prevR)).valid = false ∧
      ValError.ruleATeam p (some (JsNum.num tp)) (some (JsNum.num tn)) ∈
        (validateResults newR (some prevR)).errors ∧
      runGate newR (some prevR) = (1, some prevR)) ∧
    ((∃ e ∈ prevR.goals_pool, e.participant = p ∧ e.total_goals = some (JsNum.num tp)) →
      (∃ c, newR.goals_pool.find? (fun e => e.participant == p) = some c ∧
        c.total_goals = some (JsNum.num tn)) →
      tn < tp →
      (validateResults newR (some prevR)).valid = false ∧
      ValError.ruleAGoals p (some (JsNum.num tp)) (some (JsNum.num tn)) ∈
        (validateResults newR (some prevR)).errors ∧
      runGate newR (some prevR) = (1, some prevR)) := by
  constructor
  · rintro ⟨e, he, hep, het⟩ ⟨c, hfind, hct⟩ hlt
    have herr : ValError.ruleATeam p (some (JsNum.num tp)) (some (JsNum.num tn)) ∈
        ruleATeamErrors newR.team_pool prevR.team_pool := by
      rw [ruleATeamErrors, List.mem_filterMap]
      refine ⟨e, he, ?_⟩
      rw [hep, hfind]
      simp [jsLtOpt, jsLt, hct, het, hlt]
    have hmem : ValError.ruleATeam p (some (JsNum.num tp)) (some (JsNum.num tn)) ∈
        gateErrors newR (some prevR) := by
      rw [gateErrors]
      exact List.mem_append_right _ (List.mem_append_left _ herr)
    refine ⟨gate_valid_false_of_mem hmem, ?_, ?_⟩
    · simpa [validateResults] using hmem
    · simp [runGate, gate_valid_false_of_mem hmem]
  · rintro ⟨e, he, hep, het⟩ ⟨c, hfind, hct⟩ hlt
    have herr : ValError.ruleAGoals p (some (JsNum.num tp)) (some (JsNum.num tn)) ∈
        ruleAGoalsErrors newR.goals_pool prevR.goals_pool := by
      rw [ruleAGoalsErrors, List.mem_filterMap]
      refine ⟨e, he, ?_⟩
      rw [hep, hfind]
      simp [jsLtOpt, jsLt, hct, het, hlt]
    have hmem : ValError.ruleAGoals p (some (JsNum.num tp)) (some (JsNum.num tn)) ∈
        gateErrors newR (some prevR) := by
      rw [gateErrors]
      exact List.mem_append_right _ (List.mem_append_right _ herr)
    refine ⟨gate_valid_false_of_mem hmem, ?_, ?_⟩
    · simpa [validateResults] using hmem
    · simp [runGate, gate_valid_false_of_mem hmem]

/-- Witness for C1 at a concrete input: participant `P` drops from 9 team
points to 5, the gate reports it and the run aborts leaving the snapshot. -/
theorem c1_monotonicity_violation_aborts_witness :
    (validateResults ⟨[⟨"P", some (JsNum.num 5)⟩], []⟩
        (some ⟨[⟨"P", some (JsNum.num 9)⟩], []⟩)).valid = false ∧
    ValError.ruleATeam "P" (some (JsNum.num 9)) (some (JsNum.num 5)) ∈
      (validateResults ⟨[⟨"P", some (JsNum.num 5)⟩], []⟩
        (some ⟨[⟨"P", some (JsNum.num 9)⟩], []⟩)).errors ∧
    runGate ⟨[⟨"P", some (JsNum.num 5)⟩], []⟩
        (some ⟨[⟨"P", some (JsNum.num 9)⟩], []⟩) =
      (1, some ⟨[⟨"P", some (JsNum.num 9)⟩], []⟩) :=
  (c1_monotonicity_violation_aborts ⟨[⟨"P", some (JsNum.num 9)⟩], []⟩
      ⟨[⟨"P", some (JsNum.num 5)⟩], []⟩ "P" 9 5).1
    ⟨⟨"P", some (JsNum.num 9)⟩, by decide, rfl, rfl⟩
    ⟨⟨"P", some (JsNum.num 5)⟩, by decide, rfl⟩
    (by norm_num)

/-- **C2 counterexample**: a result set whose only total is `+Infinity` passes
the gate (`== null` is false, `isNaN` is false, `< 0` is false), refuting the
claim that every non-finite total is rejected. -/
theorem c2_counterexample_infinite_total_accepted :
    (validateResults ⟨[], [⟨"A", some JsNum.posInf⟩]⟩ none).valid = true ∧
    (validateResults ⟨[], [⟨"A", some JsNum.posInf⟩]⟩ none).errors = [] := by
  constructor
  · decide
  · decide

/-- **C2 amended**: with no previous snapshot, `validateResults` marks a
result set invalid iff some pool total is missing, `NaN`, or negative
(`-Infinity` being caught by the negativity test); `+Infinity` is not
rejected. -/
theorem c2_amended_validity_iff (newR : GateResults) :
    ((validateResults newR none).valid = false ↔
      (∃ e ∈ newR.team_pool, isInvalidTotal e.total_points = true) ∨
      (∃ e ∈ newR.goals_pool, isInvalidTotal e.total_goals = true)) ∧
    (∀ v : Option JsNum, isInvalidTotal v = true ↔
      v = none ∨ v = some JsNum.nan ∨ v = some JsNum.negInf ∨
        ∃ q : ℚ, q < 0 ∧ v = some (JsNum.num q)) := by
  constructor
  · have hval : (validateResults newR none).valid =
        ((ruleBTeamErrors newR.team_pool ++ ruleBGoalsErrors newR.goals_pool).length == 0) := by
      simp [validateResults, gateErrors]
    rw [hval]
    rw [beq_eq_false_iff_ne]
    rw [ne_eq, List.length_eq_zero, List.append_eq_nil]
    rw [not_and_or]
    rw [ruleBTeamErrors_eq_nil_iff, ruleBGoalsErrors_eq_nil_iff]
    constructor
    · rintro (h | h)
      · left
        push_neg at h
        obtain ⟨e, he, hne⟩ := h
        exact ⟨e, he, by simpa using hne⟩
      · right
        push_neg at h
        obtain ⟨e, he, hne⟩ := h
        exact ⟨e, he, by simpa using hne⟩
    · rintro (⟨e, he, hbad⟩ | ⟨e, he, hbad⟩)
      · left
        intro hall
        have := hall e he
        rw [this] at hbad
        exact Bool.false_ne_true hbad
      · right
        intro hall
        have := hall e he
        rw [this] at hbad
        exact Bool.false_ne_true hbad
  · intro v
    match v with
    | none => simp [isInvalidTotal]
    | some JsNum.nan => simp [isInvalidTotal, jsIsNaN]
    | some JsNum.posInf => simp [isInvalidTotal, jsIsNaN, jsLt]
    | some JsNum.negInf => simp [isInvalidTotal, jsIsNaN, jsLt]
    | some (JsNum.num q) =>
      simp only [isInvalidTotal, jsIsNaN, jsLt, Bool.false_or, decide_eq_true_eq]
      constructor
      · intro h
        exact Or.inr (Or.inr (Or.inr ⟨q, h, rfl⟩))
      · rintro (h | h | h | ⟨q', hq', hv⟩) <;> first
          | exact absurd h (by simp)
          | (injection hv with hv'; injection hv' with hv''; exact hv'' ▸ hq')

theorem ruleATeam_not_mem_ruleBTeamErrors {p : String} {o n : Option JsNum}
    {pool : List TeamPoolRow} : ValError.ruleATeam p o n ∉ ruleBTeamErrors pool := by
  intro h
  rw [ruleBTeamErrors, List.mem_filterMap] at h
  obtain ⟨e, _, hfe⟩ := h
  by_cases hb : isInvalidTotal e.total_points <;> simp [hb] at hfe

theorem ruleATeam_not_mem_ruleBGoalsErrors {p : String} {o n : Option JsNum}
    {pool : List GoalsPoolRow} : ValError.ruleATeam p o n ∉ ruleBGoalsErrors pool := by
  intro h
  rw [ruleBGoalsErrors, List.mem_filterMap] at h
  obtain ⟨e, _, hfe⟩ := h
  by_cases hb : isInvalidTotal e.total_goals <;> simp [hb] at hfe

theorem ruleATeam_not_mem_ruleAGoalsErrors {p : String} {o n : Option JsNum}
    {newPool prevPool : List GoalsPoolRow} :
    ValError.ruleATeam p o n ∉ ruleAGoalsErrors newPool prevPool := by
  intro h
  rw [ruleAGoalsErrors, List.mem_filterMap] at h
  obtain ⟨e, _, hfe⟩ := h
  cases hf : newPool.find? (fun x => x.participant == e.participant) with
  | none => rw [hf] at hfe; simp at hfe
  | some curr =>
    rw [hf] at hfe
    by_cases hb : jsLtOpt curr.total_goals e.total_goals <;> simp [hb] at hfe

theorem ruleAGoals_not_mem_ruleBTeamErrors {p : String} {o n : Option JsNum}
    {pool : List TeamPoolRow} : ValError.ruleAGoals p o n ∉ ruleBTeamErrors pool := by
  intro h
  rw [ruleBTeamErrors, List.mem_filterMap] at h
  obtain ⟨e, _, hfe⟩ := h
  by_cases hb : isInvalidTotal e.total_points <;> simp [hb] at hfe

theorem ruleAGoals_not_mem_ruleBGoalsErrors {p : String} {o n : Option JsNum}
    {pool : List GoalsPoolRow} : ValError.ruleAGoals p o n ∉ ruleBGoalsErrors pool := by
  intro h
  rw [ruleBGoalsErrors, List.mem_filterMap] at h
  obtain ⟨e, _, hfe⟩ := h
  by_cases hb : isInvalidTotal e.total_goals <;> simp [hb] at hfe

theorem ruleAGoals_not_mem_ruleATeamErrors {p : String} {o n : Option JsNum}
    {newPool prevPool : List TeamPoolRow} :
    ValError.ruleAGoals p o n ∉ ruleATeamErrors newPool prevPool := by
  intro h
  rw [ruleATeamErrors, List.mem_filterMap] at h
  obtain ⟨e, _, hfe⟩ := h
  cases hf : newPool.find? (fun x => x.participant == e.participant) with
  | none => rw [hf] at hfe; simp at hfe
  | some curr =>
    rw [hf] at hfe
    by_cases hb : jsLtOpt curr.total_points e.total_points <;> simp [hb] at hfe

/-- Claim C10: a participant present in a pool of the previous snapshot but
absent from the corresponding new pool produces no Rule A error at all — the
monotonicity comparison is skipped — and consequently the gate can approve a
result set from which a previously published participant has disappeared. -/
theorem c10_disappeared_participant_skipped (prevR newR : GateResults) (p : String) :
    (p ∈ prevR.team_pool.map (fun e => e.participant) →
      newR.team_pool.find? (fun e => e.participant == p) = none →
      ∀ o n, ValError.ruleATeam p o n ∉ (validateResults newR (some prevR)).errors) ∧
    (p ∈ prevR.goals_pool.map (fun e => e.participant) →
      newR.goals_pool.find? (fun e => e.participant == p) = none →
      ∀ o n, ValError.ruleAGoals p o n ∉ (validateResults newR (some prevR)).errors) ∧
    (∃ prevE newE : GateResults, ∃ q : String,
      q ∈ prevE.team_pool.map (fun e => e.participant) ∧
      newE.team_pool.find? (fun e => e.participant == q) = none ∧
      (validateResults newE (some prevE)).valid = true) := by
  refine ⟨?_, ?_, ?_⟩
  · intro _ habs o n hmem
    simp only [validateResults, gateErrors, List.mem_append] at hmem
    rcases hmem with (hm | hm) | (hm | hm)
    · exact ruleATeam_not_mem_ruleBTeamErrors hm
    · exact ruleATeam_not_mem_ruleBGoalsErrors hm
    · rw [ruleATeamErrors, List.mem_filterMap] at hm
      obtain ⟨e, _, hfe⟩ := hm
      cases hf : newR.team_pool.find? (fun x => x.participant == e.participant) with
      | none => rw [hf] at hfe; simp at hfe
      | some curr =>
        rw [hf] at hfe
        by_cases hb : jsLtOpt curr.total_points e.total_points
        · simp only [hb, if_true] at hfe
          have hep : e.participant = p := by
            have := Option.some.inj hfe
            injection this
          rw [hep] at hf
          rw [hf] at habs
          exact Option.noConfusion habs
        · simp [hb] at hfe
    · exact ruleATeam_not_mem_ruleAGoalsErrors hm
  · intro _ habs o n hmem
    simp only [validateResults, gateErrors, List.mem_append] at hmem
    rcases hmem with (hm | hm) | (hm | hm)
    · exact ruleAGoals_not_mem_ruleBTeamErrors hm
    · exact ruleAGoals_not_mem_ruleBGoalsErrors hm
    · exact ruleAGoals_not_mem_ruleATeamErrors hm
    · rw [ruleAGoalsErrors, List.mem_filterMap] at hm
      obtain ⟨e, _, hfe⟩ := hm
      cases hf : newR.goals_pool.find? (fun x => x.participant == e.participant) with
      | none => rw [hf] at hfe; simp at hfe
      | some curr =>
        rw [hf] at hfe
        by_cases hb : jsLtOpt curr.total_goals e.total_goals
        · simp only [hb, if_true] at hfe
          have hep : e.participant = p := by
            have := Option.some.inj hfe
            injection this
          rw [hep] at hf
          rw [hf] at habs
          exact Option.noConfusion habs
        · simp [hb] at hfe
  · refine ⟨⟨[⟨"P", some (JsNum.num 9)⟩], []⟩, ⟨[], []⟩, "P", ?_, rfl, ?_⟩
    · decide
    · decide

/-- Witness for C10 at a concrete input: participant `P` (9 team points in
the previous snapshot) is absent from the new team pool; no Rule A error
names `P`, and the gate approves. -/
theorem c10_disappeared_participant_skipped_witness :
    (∀ o n, ValError.ruleATeam "P" o n ∉
      (validateResults ⟨[], []⟩ (some ⟨[⟨"P", some (JsNum.num 9)⟩], []⟩)).errors) ∧
    (validateResults ⟨[], []⟩ (some ⟨[⟨"P", some (JsNum.num 9)⟩], []⟩)).valid = true :=
  ⟨(c10_disappeared_participant_skipped ⟨[⟨"P", some (JsNum.num 9)⟩], []⟩ ⟨[], []⟩ "P").1
      (by decide) rfl,
    by decide⟩

/-! ## Theorems: the rules engine -/

/-- Claim C3: `calculateTeamPoints` returns the sum of league points, UEFA
phase points and the two cup bonuses, each bonus being one table lookup on
the single recorded milestone (never a sum over several milestones), absent
progress giving 0; with the table values and the two literal scenarios of the
specification (80 league + domestic winner → 95; 80 league + domestic
runner-up + Champions-League winner → 112 with `domestic_cup_points = 12` and
`uefa_points = 20`). -/
theorem c3_team_points_non_stacking (td : TeamData) :
    ((calculateTeamPoints td).total =
      td.league_points.getD 0 + td.uefa_league_phase_points.getD 0 +
        getDomesticCupBonus td.domestic_cup + getUefaCupBonus td.uefa_cup) ∧
    getDomesticCupBonus none = 0 ∧
    getUefaCupBonus none = 0 ∧
    (∀ m : String, getDomesticCupBonus (some ⟨some m⟩) =
      (DOMESTIC_CUP_MILESTONES m).getD 0) ∧
    (∀ c m : String, getUefaCupBonus (some ⟨some c, some m⟩) =
      ((UEFA_CUP_MILESTONES c).map fun tier => (tier m).getD 0).getD 0) ∧
    DOMESTIC_CUP_MILESTONES "winner" = some 15 ∧
    DOMESTIC_CUP_MILESTONES "runner_up" = some 12 ∧
    DOMESTIC_CUP_MILESTONES "semifinal" = some 8 ∧
    ((UEFA_CUP_MILESTONES "champions_league").map fun tier =>
      (tier "winner", tier "runner_up", tier "semifinal")) =
        some (some 20, some 15, some 10) ∧
    ((UEFA_CUP_MILESTONES "europa_league").map fun tier =>
      (tier "winner", tier "runner_up", tier "semifinal")) =
        some (some 12, some 10, some 6) ∧
    ((UEFA_CUP_MILESTONES "conference_league").map fun tier =>
      (tier "winner", tier "runner_up", tier "semifinal")) =
        some (some 12, some 10, some 6) ∧
    calculateTeamPoints ⟨some 80, none, some ⟨some "winner"⟩, none⟩ =
      ⟨95, 80, 0, 15⟩ ∧
    calculateTeamPoints
        ⟨some 80, some 0, some ⟨some "runner_up"⟩,
          some ⟨some "champions_league", some "winner"⟩⟩ =
      ⟨112, 80, 20, 12⟩ := by
  refine ⟨rfl, rfl, rfl, fun m => rfl, fun c m => ?_, rfl, rfl, rfl, ?_, ?_, ?_, ?_, ?_⟩
  · show (match UEFA_CUP_MILESTONES c with
      | none => 0
      | some tier => (tier m).getD 0) = _
    cases UEFA_CUP_MILESTONES c <;> simp
  · rfl
  · rfl
  · rfl
  · simp only [calculateTeamPoints, getDomesticCupBonus, getUefaCupBonus,
      DOMESTIC_CUP_MILESTONES, UEFA_CUP_MILESTONES]
    norm_num [TeamScore.mk.injEq]
  · simp only [calculateTeamPoints, getDomesticCupBonus, getUefaCupBonus,
      DOMESTIC_CUP_MILESTONES, UEFA_CUP_MILESTONES]
    norm_num [TeamScore.mk.injEq,
      (show ("runner_up" : String) ≠ "winner" by decide)]

/-- Claim C4: `calculatePlayerGoals` counts exactly the goal events on or after
the active-from date whose type is neither an own goal nor a shootout goal
and whose competition is not a recognized supercup; in-match penalties and
extra-time goals count, a goal dated exactly on the active-from date counts,
one dated a day earlier does not. -/
theorem c4_goal_eligibility (goals : List GoalEvent) (activeFromDate : ℤ) :
    (calculatePlayerGoals (some goals) activeFromDate =
      (goals.filter fun g =>
        decide (activeFromDate ≤ g.date) && !(g.type == "own_goal") &&
          !(g.type == "penalty_shootout") &&
          !isSupercup (g.competition.getD "")).length) ∧
    (∀ d : ℤ,
      calculatePlayerGoals (some [⟨d, 20, "normal", some "Bundesliga"⟩]) d = 1 ∧
      calculatePlayerGoals (some [⟨d - 1, 20, "normal", some "Bundesliga"⟩]) d = 0) ∧
    calculatePlayerGoals
      (some [⟨100, 85, "penalty", some "La Liga"⟩,
             ⟨100, 118, "normal", some "Ligue 1"⟩,
             ⟨100, 0, "penalty_shootout", some "Ligue 1"⟩]) 50 = 2 := by
  refine ⟨?_, ?_, by decide⟩
  · simp only [calculatePlayerGoals]
    congr 1
    apply List.filter_congr
    intro g _
    by_cases h1 : g.date < activeFromDate
    · simp [h1, not_le.mpr h1]
    · by_cases h2 : g.type = "penalty_shootout"
      · simp [h1, h2, not_lt.mp h1]
      · by_cases h3 : g.type = "own_goal"
        · simp [h1, h2, h3, not_lt.mp h1]
        · by_cases h4 : isSupercup (g.competition.getD "")
          · simp [h1, h2, h3, h4, not_lt.mp h1]
          · simp [h1, h2, h3, h4, not_lt.mp h1]
  · intro d
    constructor
    · unfold calculatePlayerGoals
      have hsc : isSupercup "Bundesliga" = false := by decide
      simp [lt_irrefl, hsc]
    · unfold calculatePlayerGoals
      have : d - 1 < d := by omega
      simp [this]

/-- Claim C5 (evaluation): on `[100, 80, 60]` and `[100, 100, 60]`
`calculatePayouts` pays `[250, 50, 0]` and `[150, 150, 0]` as the claim
states, but on the three-way tie `[100, 100, 100]` it pays 250 to the
alphabetically first participant and 0 to the others — not the `[100, 100,
100]` split asserted by the claim and by the repository's own unit test
(which the display-layer `computePoolPayouts` does produce). -/
theorem c5_payout_scenarios_eval :
    calculatePayouts [⟨"A", 100⟩, ⟨"B", 80⟩, ⟨"C", 60⟩] =
      [⟨"A", 250⟩, ⟨"B", 50⟩, ⟨"C", 0⟩] ∧
    calculatePayouts [⟨"A", 100⟩, ⟨"B", 100⟩, ⟨"C", 60⟩] =
      [⟨"A", 150⟩, ⟨"B", 150⟩, ⟨"C", 0⟩] ∧
    calculatePayouts [⟨"A", 100⟩, ⟨"B", 100⟩, ⟨"C", 100⟩] =
      [⟨"A", 250⟩, ⟨"B", 0⟩, ⟨"C", 0⟩] ∧
    (computePoolPayouts [⟨"A", 100⟩, ⟨"B", 100⟩, ⟨"C", 100⟩]).map
        (fun r => (r.participant, r.payout)) =
      [("A", 100), ("B", 100), ("C", 100)] := by
  refine ⟨by decide, by decide, by decide, ?_⟩
  have hsplit : ((⌊(300 : ℚ) / ((3 : ℕ) : ℚ)⌋ : ℤ) : ℚ) = 100 := by norm_num
  simp only [computePoolPayouts, List.insertionSort, List.orderedInsert, byTotalDesc]
  norm_num [hsplit]


theorem map_rank_assignTeamRanks (i : ℕ) (l : List TeamPoolEntry) :
    (assignTeamRanks i l).map (fun e => e.rank) = List.range' i l.length := by
  induction l generalizing i with
  | nil => rfl
  | cons e t ih => simp [assignTeamRanks, List.range', ih]

theorem map_rank_assignGoalsRanks (i : ℕ) (l : List GoalsPoolEntry) :
    (assignGoalsRanks i l).map (fun e => e.rank) = List.range' i l.length := by
  induction l generalizing i with
  | nil => rfl
  | cons e t ih => simp [assignGoalsRanks, List.range', ih]

theorem total_of_mem_assignTeamRanks {b : TeamPoolEntry} {i : ℕ}
    {l : List TeamPoolEntry} (h : b ∈ assignTeamRanks i l) :
    ∃ e ∈ l, b.total_points = e.total_points := by
  induction l generalizing i with
  | nil => simp [assignTeamRanks] at h
  | cons e t ih =>
    rw [assignTeamRanks] at h
    rcases List.mem_cons.mp h with h | h
    · exact ⟨e, List.mem_cons_self e t, by rw [h]⟩
    · obtain ⟨e', he', h1⟩ := ih h
      exact ⟨e', List.mem_cons_of_mem _ he', h1⟩

theorem total_of_mem_assignGoalsRanks {b : GoalsPoolEntry} {i : ℕ}
    {l : List GoalsPoolEntry} (h : b ∈ assignGoalsRanks i l) :
    ∃ e ∈ l, b.total_goals = e.total_goals := by
  induction l generalizing i with
  | nil => simp [assignGoalsRanks] at h
  | cons e t ih =>
    rw [assignGoalsRanks] at h
    rcases List.mem_cons.mp h with h | h
    · exact ⟨e, List.mem_cons_self e t, by rw [h]⟩
    · obtain ⟨e', he', h1⟩ := ih h
      exact ⟨e', List.mem_cons_of_mem _ he', h1⟩

theorem pairwise_assignTeamRanks {S : ℚ → ℚ → Prop} {l : List TeamPoolEntry} (i : ℕ)
    (h : l.Pairwise fun a b => S a.total_points b.total_points) :
    (assignTeamRanks i l).Pairwise fun a b => S a.total_points b.total_points := by
  induction l generalizing i with
  | nil => exact List.Pairwise.nil
  | cons e t ih =>
    rw [assignTeamRanks]
    obtain ⟨h1, h2⟩ := List.pairwise_cons.mp h
    refine List.Pairwise.cons ?_ (ih (i + 1) h2)
    intro b hb
    obtain ⟨e', he', htot⟩ := total_of_mem_assignTeamRanks hb
    show S e.total_points b.total_points
    rw [htot]
    exact h1 e' he'

theorem pairwise_assignGoalsRanks {S : ℕ → ℕ → Prop} {l : List GoalsPoolEntry} (i : ℕ)
    (h : l.Pairwise fun a b => S a.total_goals b.total_goals) :
    (assignGoalsRanks i l).Pairwise fun a b => S a.total_goals b.total_goals := by
  induction l generalizing i with
  | nil => exact List.Pairwise.nil
  | cons e t ih =>
    rw [assignGoalsRanks]
    obtain ⟨h1, h2⟩ := List.pairwise_cons.mp h
    refine List.Pairwise.cons ?_ (ih (i + 1) h2)
    intro b hb
    obtain ⟨e', he', htot⟩ := total_of_mem_assignGoalsRanks hb
    show S e.total_goals b.total_goals
    rw [htot]
    exact h1 e' he'

/-- Claim C7: for every roster input with `N ≥ 1` participants, both pools of
`computeResults` are sorted by descending total and their rank fields are
exactly `1..N` (assigned by array position after the sort, so equal totals
receive consecutive distinct ranks, never a shared rank). -/
theorem c7_rank_density (rosters : Rosters) (apiData : ApiData) (now : String)
    (_hN : 1 ≤ rosters.rosters.length) :
    ((computeResults rosters apiData now).team_pool.map (fun e => e.rank) =
      List.range' 1 rosters.rosters.length) ∧
    ((computeResults rosters apiData now).team_pool.Pairwise fun a b =>
      b.total_points ≤ a.total_points) ∧
    ((computeResults rosters apiData now).goals_pool.map (fun e => e.rank) =
      List.range' 1 rosters.rosters.length) ∧
    ((computeResults rosters apiData now).goals_pool.Pairwise fun a b =>
      b.total_goals ≤ a.total_goals) := by
  refine ⟨?_, ?_, ?_, ?_⟩
  · show ((assignTeamRanks 1 _).map fun e => e.rank) = _
    rw [map_rank_assignTeamRanks, List.length_insertionSort, List.length_map]
  · exact @pairwise_assignTeamRanks (fun x y => y ≤ x) _ 1
      (List.sorted_insertionSort byTeamPoints _)
  · show ((assignGoalsRanks 1 _).map fun e => e.rank) = _
    rw [map_rank_assignGoalsRanks, List.length_insertionSort, List.length_map]
  · exact @pairwise_assignGoalsRanks (fun x y => y ≤ x) _ 1
      (List.sorted_insertionSort byGoals _)


/-- Witness for C7 at a concrete input: two participants tied at zero still
receive the dense ranks `[1, 2]`. -/
theorem c7_rank_density_witness :
    1 ≤ rostersW.rosters.length ∧
    (((computeResults rostersW apiW "t").team_pool.map (fun e => e.rank) =
        List.range' 1 rostersW.rosters.length) ∧
      ((computeResults rostersW apiW "t").team_pool.Pairwise fun a b =>
        b.total_points ≤ a.total_points) ∧
      ((computeResults rostersW apiW "t").goals_pool.map (fun e => e.rank) =
        List.range' 1 rostersW.rosters.length) ∧
      ((computeResults rostersW apiW "t").goals_pool.Pairwise fun a b =>
        b.total_goals ≤ a.total_goals)) :=
  ⟨by decide, c7_rank_density rostersW apiW "t" (by decide)⟩

/-! ## Theorems: payout distribution -/

theorem charListLe_cons_iff {x y : Char} {xs ys : List Char} :
    charListLe (x :: xs) (y :: ys) = true ↔
      x < y ∨ (x = y ∧ charListLe xs ys = true) := by
  by_cases h1 : x < y
  · simp [charListLe, h1]
  · by_cases h2 : y < x
    · have hne : x ≠ y := fun e => absurd (e ▸ h2) (lt_irrefl _)
      simp [charListLe, h1, h2, hne]
    · have heq : x = y := le_antisymm (not_lt.mp h2) (not_lt.mp h1)
      simp [charListLe, h1, h2, heq]

theorem charListLe_total : ∀ x y : List Char,
    charListLe x y = true ∨ charListLe y x = true := by
  intro x
  induction x with
  | nil => intro y; left; rfl
  | cons c cs ih =>
    intro y
    cases y with
    | nil => right; rfl
    | cons d ds =>
      by_cases h1 : c < d
      · left; simp [charListLe, h1]
      · by_cases h2 : d < c
        · right; simp [charListLe, h1, h2]
        · have heq : c = d := le_antisymm (not_lt.mp h2) (not_lt.mp h1)
          rcases ih ds with h | h
          · left; exact charListLe_cons_iff.mpr (Or.inr ⟨heq, h⟩)
          · right; exact charListLe_cons_iff.mpr (Or.inr ⟨heq.symm, h⟩)

theorem charListLe_trans : ∀ {x y z : List Char}, charListLe x y = true →
    charListLe y z = true → charListLe x z = true := by
  intro x
  induction x with
  | nil => intro y z _ _; rfl
  | cons a as ih =>
    intro y z hxy hyz
    cases y with
    | nil => exact absurd hxy (by simp [charListLe])
    | cons b bs =>
      cases z with
      | nil => exact absurd hyz (by simp [charListLe])
      | cons c cs =>
        rcases charListLe_cons_iff.mp hxy with h | ⟨he, hrest⟩
        · rcases charListLe_cons_iff.mp hyz with h' | ⟨he', hrest'⟩
          · exact charListLe_cons_iff.mpr (Or.inl (lt_trans h h'))
          · exact charListLe_cons_iff.mpr (Or.inl (he' ▸ h))
        · rcases charListLe_cons_iff.mp hyz with h' | ⟨he', hrest'⟩
          · exact charListLe_cons_iff.mpr (Or.inl (by rw [he]; exact h'))
          · exact charListLe_cons_iff.mpr (Or.inr ⟨he.trans he', ih hrest hrest'⟩)

theorem map_participant_setFirstPayout (l : List PayoutRow) (name : String) (amt : ℚ) :
    (setFirstPayout l name amt).map (fun e => e.participant) =
      l.map fun e => e.participant := by
  induction l with
  | nil => rfl
  | cons p t ih =>
    by_cases hp : p.participant = name <;> simp [setFirstPayout, hp, ih]

theorem lookupPayout_setFirstPayout_self {l : List PayoutRow} {name : String} {amt : ℚ}
    (h : name ∈ l.map fun e => e.participant) :
    lookupPayout (setFirstPayout l name amt) name = some amt := by
  induction l with
  | nil => simp at h
  | cons p t ih =>
    by_cases hp : p.participant = name
    · rw [setFirstPayout, if_pos (by simp [hp])]
      show (List.find? (fun e => e.participant == name)
          ({ p with payout := amt } :: t)).map (fun e => e.payout) = some amt
      rw [List.find?_cons_of_pos _ (by simp [hp])]
      rfl
    · have hmem : name ∈ t.map fun e => e.participant := by
        rcases List.mem_map.mp h with ⟨e, he, hee⟩
        rcases List.mem_cons.mp he with rfl | he'
        · exact absurd hee hp
        · exact List.mem_map.mpr ⟨e, he', hee⟩
      rw [setFirstPayout, if_neg (by simp [hp])]
      show (List.find? (fun e => e.participant == name)
          (p :: setFirstPayout t name amt)).map (fun e => e.payout) = some amt
      rw [List.find?_cons_of_neg _ (by simp [hp])]
      exact ih hmem

theorem lookupPayout_setFirstPayout_ne {l : List PayoutRow} {name q : String} {amt : ℚ}
    (h : q ≠ name) :
    lookupPayout (setFirstPayout l name amt) q = lookupPayout l q := by
  induction l with
  | nil => rfl
  | cons p t ih =>
    by_cases hp : p.participant = name
    · have hpq : ¬p.participant = q := fun e => h (e.symm.trans hp)
      rw [setFirstPayout, if_pos (by simp [hp])]
      show (List.find? (fun e => e.participant == q)
            ({ p with payout := amt } :: t)).map (fun e => e.payout) =
          (List.find? (fun e => e.participant == q) (p :: t)).map (fun e => e.payout)
      rw [List.find?_cons_of_neg _ (by simp [hpq]),
        List.find?_cons_of_neg _ (by simp [hpq])]
    · rw [setFirstPayout, if_neg (by simp [hp])]
      show (List.find? (fun e => e.participant == q)
            (p :: setFirstPayout t name amt)).map (fun e => e.payout) =
          (List.find? (fun e => e.participant == q) (p :: t)).map (fun e => e.payout)
      by_cases hq : p.participant = q
      · rw [List.find?_cons_of_pos _ (by simp [hq]),
          List.find?_cons_of_pos _ (by simp [hq])]
      · rw [List.find?_cons_of_neg _ (by simp [hq]),
          List.find?_cons_of_neg _ (by simp [hq])]
        exact ih

theorem lookupPayout_payoutsBase {sorted : List Standing} {q : String}
    (h : q ∈ sorted.map fun s => s.participant) :
    lookupPayout (payoutsBase sorted) q = some 0 := by
  induction sorted with
  | nil => simp at h
  | cons s t ih =>
    by_cases hq : s.participant = q
    · show (List.find? (fun e => e.participant == q)
          (PayoutRow.mk s.participant 0 :: payoutsBase t)).map (fun e => e.payout) = some 0
      rw [List.find?_cons_of_pos _ (by simp [hq])]
      rfl
    · have hmem : q ∈ t.map fun s => s.participant := by
        rcases List.mem_map.mp h with ⟨e, he, hee⟩
        rcases List.mem_cons.mp he with rfl | he'
        · exact absurd hee hq
        · exact List.mem_map.mpr ⟨e, he', hee⟩
      show (List.find? (fun e => e.participant == q)
          (PayoutRow.mk s.participant 0 :: payoutsBase t)).map (fun e => e.payout) = some 0
      rw [List.find?_cons_of_neg _ (by simp [hq])]
      exact ih hmem

theorem map_participant_payoutsBase (l : List Standing) :
    (payoutsBase l).map (fun e => e.participant) = l.map fun s => s.participant := by
  simp [payoutsBase, List.map_map, Function.comp]

theorem calculatePayouts_eq_threeWayTie {standings : List Standing} {top : Standing}
    {rest : List Standing}
    (hs : standings.insertionSort byTotalDesc = top :: rest)
    (h3 : 3 ≤ ((top :: rest).filter fun s => decide (s.total = top.total)).length) :
    calculatePayouts standings = payoutsThreeWayTie (top :: rest) top.total := by
  have hne : standings ≠ [] := by
    intro h
    rw [h] at hs
    simp [List.insertionSort] at hs
  have hE : standings.isEmpty = false := by
    cases standings with
    | nil => exact absurd rfl hne
    | cons a t => rfl
  rw [calculatePayouts, hE]
  simp only [Bool.false_eq_true, if_false]
  rw [hs]
  have h2 : ((((top :: rest)).filter fun s => decide (s.total = top.total)).length == 2)
      = false := by
    rw [beq_eq_false_iff_ne]
    omega
  simp only [h2, Bool.false_eq_true, if_false]
  rw [if_pos h3]

/-- Claim C6: when three or more participants are tied at the maximum total,
`calculatePayouts` pays 250 to exactly one of them — the tied participant
whose display name is lexicographically least — pays 50 to a participant
holding the next-highest total strictly below the tied group when one
exists, and pays 0 to every other participant, including the remaining tied
ones. -/
theorem c6_three_way_tie_payout (standings : List Standing) (M : ℚ)
    (hnd : (standings.map fun s => s.participant).Nodup)
    (hub : ∀ s ∈ standings, s.total ≤ M)
    (h3 : 3 ≤ (standings.filter fun s => decide (s.total = M)).length) :
    ∃ w ∈ standings, w.total = M ∧
      (∀ s ∈ standings, s.total = M →
        charListLe w.participant.data s.participant.data = true) ∧
      lookupPayout (calculatePayouts standings) w.participant = some 250 ∧
      (∀ s ∈ standings, s.total = M → s.participant ≠ w.participant →
        lookupPayout (calculatePayouts standings) s.participant = some 0) ∧
      ((∃ s ∈ standings, s.total < M) →
        ∃ r ∈ standings, r.total < M ∧
          (∀ s ∈ standings, s.total < M → s.total ≤ r.total) ∧
          lookupPayout (calculatePayouts standings) r.participant = some 50 ∧
          (∀ s ∈ standings, s.participant ≠ w.participant →
            s.participant ≠ r.participant →
            lookupPayout (calculatePayouts standings) s.participant = some 0)) ∧
      ((∀ s ∈ standings, ¬s.total < M) →
        ∀ s ∈ standings, s.participant ≠ w.participant →
          lookupPayout (calculatePayouts standings) s.participant = some 0) := by
  have hperm : (standings.insertionSort byTotalDesc).Perm standings :=
    List.perm_insertionSort byTotalDesc standings
  have hsort : List.Sorted byTotalDesc (standings.insertionSort byTotalDesc) :=
    List.sorted_insertionSort byTotalDesc standings
  have hlen3 : 3 ≤ standings.length :=
    le_trans h3 (List.length_filter_le _ _)
  obtain ⟨top, rest, hs⟩ : ∃ top rest,
      standings.insertionSort byTotalDesc = top :: rest := by
    cases h : standings.insertionSort byTotalDesc with
    | nil =>
      exfalso
      have hl := hperm.length_eq
      rw [h] at hl
      simp at hl
      omega
    | cons a t => exact ⟨a, t, rfl⟩
  rw [hs] at hperm hsort
  have htopmem : top ∈ standings := hperm.subset (List.mem_cons_self top rest)
  obtain ⟨sM, hsMmem, hsMtot⟩ : ∃ s ∈ standings, s.total = M := by
    have hfne : (standings.filter fun s => decide (s.total = M)) ≠ [] := by
      intro h
      rw [h] at h3
      simp at h3
    obtain ⟨s, hsmem⟩ := List.exists_mem_of_ne_nil _ hfne
    have hm := List.mem_filter.mp hsmem
    exact ⟨s, hm.1, by simpa using hm.2⟩
  have htop : top.total = M := by
    refine le_antisymm (hub top htopmem) ?_
    have hsM_sorted : sM ∈ top :: rest := hperm.mem_iff.mpr hsMmem
    rcases List.mem_cons.mp hsM_sorted with rfl | hmem
    · exact le_of_eq hsMtot.symm
    · have hrel := List.rel_of_sorted_cons hsort sM hmem
      rw [← hsMtot]
      exact hrel
  have h3' : 3 ≤ ((top :: rest).filter fun s => decide (s.total = top.total)).length := by
    rw [htop, (hperm.filter _).length_eq]
    exact h3
  have hres := calculatePayouts_eq_threeWayTie hs h3'
  have hndS : ((top :: rest).map fun s => s.participant).Nodup :=
    ((hperm.map fun s => s.participant).nodup_iff).mpr hnd
  have hinj := List.inj_on_of_nodup_map hndS
  have hnames : ∀ s ∈ standings,
      s.participant ∈ (top :: rest).map fun s => s.participant := by
    intro s hsm
    exact List.mem_map.mpr ⟨s, hperm.mem_iff.mpr hsm, rfl⟩
  set tied := (top :: rest).filter fun s => decide (s.total = top.total) with htied_def
  have hsortA : List.Sorted byNameAsc (tied.insertionSort byNameAsc) :=
    @List.sorted_insertionSort Standing byNameAsc _
      ⟨fun a b => charListLe_total a.participant.data b.participant.data⟩
      ⟨fun _ _ _ hab hbc => charListLe_trans hab hbc⟩ tied
  obtain ⟨w, restA, ha⟩ : ∃ w restA, tied.insertionSort byNameAsc = w :: restA := by
    cases h : tied.insertionSort byNameAsc with
    | nil =>
      exfalso
      have hl := (List.perm_insertionSort byNameAsc tied).length_eq
      rw [h] at hl
      simp at hl
      omega
    | cons a t => exact ⟨a, t, rfl⟩
  have hpermA : (w :: restA).Perm tied := by
    rw [← ha]
    exact List.perm_insertionSort byNameAsc tied
  rw [ha] at hsortA
  have hwtied : w ∈ tied := hpermA.subset (List.mem_cons_self w restA)
  have hwsorted : w ∈ top :: rest := (List.mem_filter.mp hwtied).1
  have hwmem : w ∈ standings := hperm.subset hwsorted
  have hwtot : w.total = M := by
    have hdec := (List.mem_filter.mp hwtied).2
    rw [← htop]
    simpa using hdec
  have hwmin : ∀ s ∈ standings, s.total = M →
      charListLe w.participant.data s.participant.data = true := by
    intro s hsm hstot
    have hstied : s ∈ tied :=
      List.mem_filter.mpr ⟨hperm.mem_iff.mpr hsm, by simp [hstot, htop]⟩
    rcases List.mem_cons.mp (hpermA.mem_iff.mpr hstied) with rfl | hmem
    · rcases charListLe_total s.participant.data s.participant.data with h | h <;> exact h
    · exact List.rel_of_sorted_cons hsortA s hmem
  cases hnt : (top :: rest).filter fun s => decide (s.total < top.total) with
  | nil =>
    have hres2 : calculatePayouts standings =
        setFirstPayout (payoutsBase (top :: rest)) w.participant 250 := by
      rw [hres, payoutsThreeWayTie, ← htied_def, ha, hnt]
    refine ⟨w, hwmem, hwtot, hwmin, ?_, ?_, ?_, ?_⟩
    · rw [hres2]
      apply lookupPayout_setFirstPayout_self
      rw [map_participant_payoutsBase]
      exact hnames w hwmem
    · intro s hsm _ hsne
      rw [hres2, lookupPayout_setFirstPayout_ne hsne]
      exact lookupPayout_payoutsBase (hnames s hsm)
    · rintro ⟨s, hsm, hslt⟩
      exfalso
      have hsf : s ∈ (top :: rest).filter fun s => decide (s.total < top.total) :=
        List.mem_filter.mpr ⟨hperm.mem_iff.mpr hsm, by simp [htop, hslt]⟩
      rw [hnt] at hsf
      simp at hsf
    · intro _ s hsm hsne
      rw [hres2, lookupPayout_setFirstPayout_ne hsne]
      exact lookupPayout_payoutsBase (hnames s hsm)
  | cons r restN =>
    have hres2 : calculatePayouts standings =
        setFirstPayout (setFirstPayout (payoutsBase (top :: rest)) w.participant 250)
          r.participant 50 := by
      rw [hres, payoutsThreeWayTie, ← htied_def, ha, hnt]
    have hrmemf : r ∈ (top :: rest).filter fun s => decide (s.total < top.total) := by
      rw [hnt]
      exact List.mem_cons_self r restN
    have hrS := List.mem_filter.mp hrmemf
    have hrmem : r ∈ standings := hperm.subset hrS.1
    have hrlt : r.total < M := by
      have hdec := hrS.2
      rw [← htop]
      simpa using hdec
    have hrmax : ∀ s ∈ standings, s.total < M → s.total ≤ r.total := by
      intro s hsm hslt
      have hsf : s ∈ (top :: rest).filter fun s => decide (s.total < top.total) :=
        List.mem_filter.mpr ⟨hperm.mem_iff.mpr hsm, by simp [htop, hslt]⟩
      rw [hnt] at hsf
      rcases List.mem_cons.mp hsf with rfl | hmem
      · exact le_refl _
      · have hpw := List.Pairwise.filter
          (fun s => decide (s.total < top.total)) hsort
        rw [hnt] at hpw
        exact List.rel_of_sorted_cons hpw s hmem
    have hwr : w.participant ≠ r.participant := by
      intro he
      have hwe : w = r := hinj hwsorted hrS.1 he
      have hrtot : r.total = M := hwe ▸ hwtot
      rw [hrtot] at hrlt
      exact lt_irrefl M hrlt
    refine ⟨w, hwmem, hwtot, hwmin, ?_, ?_, ?_, ?_⟩
    · rw [hres2, lookupPayout_setFirstPayout_ne hwr]
      apply lookupPayout_setFirstPayout_self
      rw [map_participant_payoutsBase]
      exact hnames w hwmem
    · intro s hsm hstot hsne
      have hsr : s.participant ≠ r.participant := by
        intro he
        have hse : s = r := hinj (hperm.mem_iff.mpr hsm) hrS.1 he
        rw [hse] at hstot
        rw [hstot] at hrlt
        exact lt_irrefl M hrlt
      rw [hres2, lookupPayout_setFirstPayout_ne hsr, lookupPayout_setFirstPayout_ne hsne]
      exact lookupPayout_payoutsBase (hnames s hsm)
    · intro _
      refine ⟨r, hrmem, hrlt, hrmax, ?_, ?_⟩
      · rw [hres2]
        apply lookupPayout_setFirstPayout_self
        rw [map_participant_setFirstPayout, map_participant_payoutsBase]
        exact hnames r hrmem
      · intro s hsm hsnw hsnr
        rw [hres2, lookupPayout_setFirstPayout_ne hsnr, lookupPayout_setFirstPayout_ne hsnw]
        exact lookupPayout_payoutsBase (hnames s hsm)
    · intro hall
      exact absurd hrlt (hall r hrmem)

/-- Witness for C6 at a concrete input: participants `B`, `A`, `C` tied at 5
with `D` at 3 — the theorem applies, so `A` (lexicographically least) takes
250, `D` takes 50, and `B`, `C` take 0. -/
theorem c6_three_way_tie_payout_witness :
    ((([⟨"B", 5⟩, ⟨"A", 5⟩, ⟨"C", 5⟩, ⟨"D", 3⟩] : List Standing).map
        fun s => s.participant).Nodup) ∧
    (∀ s ∈ ([⟨"B", 5⟩, ⟨"A", 5⟩, ⟨"C", 5⟩, ⟨"D", 3⟩] : List Standing),
      s.total ≤ 5) ∧
    (3 ≤ (([⟨"B", 5⟩, ⟨"A", 5⟩, ⟨"C", 5⟩, ⟨"D", 3⟩] : List Standing).filter
        fun s => decide (s.total = 5)).length) ∧
    (∃ w ∈ ([⟨"B", 5⟩, ⟨"A", 5⟩, ⟨"C", 5⟩, ⟨"D", 3⟩] : List Standing),
      w.total = 5 ∧
      (∀ s ∈ ([⟨"B", 5⟩, ⟨"A", 5⟩, ⟨"C", 5⟩, ⟨"D", 3⟩] : List Standing),
        s.total = 5 → charListLe w.participant.data s.participant.data = true) ∧
      lookupPayout (calculatePayouts [⟨"B", 5⟩, ⟨"A", 5⟩, ⟨"C", 5⟩, ⟨"D", 3⟩])
        w.participant = some 250 ∧
      (∀ s ∈ ([⟨"B", 5⟩, ⟨"A", 5⟩, ⟨"C", 5⟩, ⟨"D", 3⟩] : List Standing),
        s.total = 5 → s.participant ≠ w.participant →
        lookupPayout (calculatePayouts [⟨"B", 5⟩, ⟨"A", 5⟩, ⟨"C", 5⟩, ⟨"D", 3⟩])
          s.participant = some 0) ∧
      ((∃ s ∈ ([⟨"B", 5⟩, ⟨"A", 5⟩, ⟨"C", 5⟩, ⟨"D", 3⟩] : List Standing),
          s.total < 5) →
        ∃ r ∈ ([⟨"B", 5⟩, ⟨"A", 5⟩, ⟨"C", 5⟩, ⟨"D", 3⟩] : List Standing),
          r.total < 5 ∧
          (∀ s ∈ ([⟨"B", 5⟩, ⟨"A", 5⟩, ⟨"C", 5⟩, ⟨"D", 3⟩] : List Standing),
            s.total < 5 → s.total ≤ r.total) ∧
          lookupPayout (calculatePayouts [⟨"B", 5⟩, ⟨"A", 5⟩, ⟨"C", 5⟩, ⟨"D", 3⟩])
            r.participant = some 50 ∧
          (∀ s ∈ ([⟨"B", 5⟩, ⟨"A", 5⟩, ⟨"C", 5⟩, ⟨"D", 3⟩] : List Standing),
            s.participant ≠ w.participant → s.participant ≠ r.participant →
            lookupPayout (calculatePayouts [⟨"B", 5⟩, ⟨"A", 5⟩, ⟨"C", 5⟩, ⟨"D", 3⟩])
              s.participant = some 0)) ∧
      ((∀ s ∈ ([⟨"B", 5⟩, ⟨"A", 5⟩, ⟨"C", 5⟩, ⟨"D", 3⟩] : List Standing),
          ¬s.total < 5) →
        ∀ s ∈ ([⟨"B", 5⟩, ⟨"A", 5⟩, ⟨"C", 5⟩, ⟨"D", 3⟩] : List Standing),
          s.participant ≠ w.participant →
          lookupPayout (calculatePayouts [⟨"B", 5⟩, ⟨"A", 5⟩, ⟨"C", 5⟩, ⟨"D", 3⟩])
            s.participant = some 0)) :=
  ⟨by decide, by decide, by decide,
    c6_three_way_tie_payout [⟨"B", 5⟩, ⟨"A", 5⟩, ⟨"C", 5⟩, ⟨"D", 3⟩] 5
      (by decide) (by decide) (by decide)⟩

/-! ## Theorems: entity name resolution -/

theorem includesChars_of_isPrefixOf {needle hay : List Char}
    (h : needle.isPrefixOf hay = true) : includesChars needle hay = true := by
  cases hay with
  | nil =>
    cases needle with
    | nil => rfl
    | cons c t => simp [List.isPrefixOf] at h
  | cons c t => simp [includesChars, h]

theorem findSubstringPass_eq_amended (table : List (String × List String)) (wikiNorm : String) :
    findSubstringPass table wikiNorm = findSubstringPassAmended table wikiNorm := by
  induction table with
  | nil => rfl
  | cons entry rest ih =>
    obtain ⟨rosterName, aliases⟩ := entry
    rw [findSubstringPass, findSubstringPassAmended]
    have hcond : (aliases.any fun als =>
        let aN := normalizeName als
        decide (4 < aN.length) && (jsStartsWith wikiNorm aN || jsIncludes wikiNorm aN)) =
      (aliases.any fun als =>
        let aN := normalizeName als
        decide (4 < aN.length) && jsIncludes wikiNorm aN) := by
      induction aliases with
      | nil => rfl
      | cons a as iha =>
        simp only [List.any_cons, iha]
        congr 1
        by_cases hsw : jsStartsWith wikiNorm (normalizeName a) = true
        · have hin : jsIncludes wikiNorm (normalizeName a) = true :=
            includesChars_of_isPrefixOf hsw
          simp [hsw, hin]
        · rw [Bool.not_eq_true] at hsw
          simp [hsw]
    rw [hcond, ih]

/-- **C8 counterexample**: the raw name `Borussia` is contained in the alias
`Borussia Dortmund` (so the specification's `or vice versa` substring rule
would match it), yet `matchTeamName` returns no match — the code only tests
whether the raw name contains the alias, never the converse. -/
theorem c8_counterexample_vice_versa :
    matchTeamName "Borussia" = none ∧
    matchTeamNameSpec "Borussia" = some "Borussia Dortmund" := by
  constructor
  · decide
  · decide

/-- **C8 amended**: name resolution first tries an exact match of the
normalized raw name against every normalized alias and canonical name; only
team matching then tries a substring pass, which fires only when the
normalized raw name contains an alias of normalized length above 4 (never the
reverse direction); player matching has no substring pass; a name matching no
rule yields `none`. -/
theorem c8_matching_order_amended :
    (∀ wikiName, matchTeamName wikiName = matchTeamNameAmended wikiName) ∧
    (∀ wikiName, matchPlayerName wikiName =
      findExact PLAYER_ALIASES (normalizeName wikiName)) ∧
    (∀ wikiName,
      findExact TEAM_ALIASES (normalizeName (cleanWikiTeamName wikiName)) = none →
      findSubstringPassAmended TEAM_ALIASES (normalizeName (cleanWikiTeamName wikiName)) = none →
      matchTeamName wikiName = none) := by
  refine ⟨?_, ?_, ?_⟩
  · intro w
    unfold matchTeamName matchTeamNameAmended
    cases h : findExact TEAM_ALIASES (normalizeName (cleanWikiTeamName w)) with
    | some r => simp [h]
    | none => simp [h, findSubstringPass_eq_amended]
  · intro w
    rfl
  · intro w h1 h2
    unfold matchTeamName
    simp [h1, findSubstringPass_eq_amended, h2]

/-- Witness for the amended C8 at a concrete input: `Borussia` matches no
exact alias and no one-directional substring alias, and `matchTeamName`
indeed yields no match. -/
theorem c8_matching_order_amended_witness :
    matchTeamName "Borussia" = none :=
  c8_matching_order_amended.2.2 "Borussia" (by decide) (by decide)

/-! ## Theorems: squad-table goals extraction -/

theorem squad_branch_eq (P : Option ℕ) (F : Option ℕ) :
    (match (match P with
            | some g => if 0 < g then some g else none
            | none => none) with
      | some g => some g
      | none => F) =
    (match P with
      | some g => if 0 < g then some g else F
      | none => F) := by
  cases P with
  | none => rfl
  | some g =>
    by_cases hg : 0 < g
    · simp [hg]
    · simp [hg]

/-- **C9 counterexample**: in a squad row whose designated Total goals
sub-column (physical index `infoCols + (h − infoCols) * 2 + 1 = 5`) resolves
and holds `0`, the claim's reading yields no goals entry, but the code falls
back to the odd-indexed-cell sum and records 3. -/
theorem c9_counterexample_resolvable_zero_cell :
    parseSquadAppearancesTable
        [["No.", "Pos.", "Nat.", "Player", "Total", "League"],
         ["Apps", "Goals", "Apps", "Goals"],
         ["1", "FW", "x", "John", "5", "0", "5", "3"]]
        ["No.", "Pos.", "Nat.", "Player", "Total", "League"] 0 = [("John", 3)] ∧
    parseSquadAppearancesTableSpec
        [["No.", "Pos.", "Nat.", "Player", "Total", "League"],
         ["Apps", "Goals", "Apps", "Goals"],
         ["1", "FW", "x", "John", "5", "0", "5", "3"]]
        ["No.", "Pos.", "Nat.", "Player", "Total", "League"] 0 = [] := by
  constructor
  · decide
  · decide

/-- **C9 amended**: the goals for a data row are taken from the physical cell
at `infoCols + (h − infoCols) * 2 + 1` exactly when the Total header
resolves, the index lies within the row, *and* the cell parses to a positive
number; in every other case (including a resolvable cell holding zero or
non-numeric text) the row's goals are the sum of every odd-indexed cell after
the information columns, recorded when positive. -/
theorem c9_squad_goals_cell_amended :
    (∀ headers playerIdx cells,
      squadRowGoals headers playerIdx cells =
        squadRowGoalsAmended headers playerIdx cells) ∧
    (∀ rows headers headerRowIdx,
      parseSquadAppearancesTable rows headers headerRowIdx =
        parseSquadAppearancesTableAmended rows headers headerRowIdx) := by
  have hrow : ∀ headers playerIdx cells,
      squadRowGoals headers playerIdx cells =
        squadRowGoalsAmended headers playerIdx cells := by
    intro headers playerIdx cells
    unfold squadRowGoals squadRowGoalsAmended
    cases hftc : findTotalColumn headers with
    | none => rfl
    | some h =>
      change (match (if totalGoalsCellIdx playerIdx h < (cells.length : ℤ) then
              match parseIntDigits (cellsEq cells (totalGoalsCellIdx playerIdx h)) with
              | some g => if 0 < g then some g else none
              | none => none
            else none) with
          | some g => some g
          | none => squadFallbackGoals playerIdx cells) =
        (match (if totalGoalsCellIdx playerIdx h < (cells.length : ℤ) then
              parseIntDigits (cellsEq cells (totalGoalsCellIdx playerIdx h))
            else none) with
          | some g => if 0 < g then some g else squadFallbackGoals playerIdx cells
          | none => squadFallbackGoals playerIdx cells)
      by_cases hc : totalGoalsCellIdx playerIdx h < (cells.length : ℤ)
      · rw [if_pos hc, if_pos hc]
        cases hp : parseIntDigits (cellsEq cells (totalGoalsCellIdx playerIdx h)) with
        | none => rfl
        | some g =>
          by_cases hg : 0 < g
          · simp [hg]
          · simp [hg]
      · rw [if_neg hc, if_neg hc]
  refine ⟨hrow, ?_⟩
  have hfun : squadRowGoals = squadRowGoalsAmended :=
    funext fun a => funext fun b => funext fun c => hrow a b c
  intro rows headers headerRowIdx
  rw [parseSquadAppearancesTable, parseSquadAppearancesTableAmended, hfun]
